import Mathlib

/-!
Verification of the `griffin::handle_map` generational slot-map container
(`src/handle_map.h`, `src/impl/handle_map-inl.h`).

The container is shallow-embedded: `std::vector` fields become `List`s,
machine integers become `Nat` with explicit `% 2^w` at the points where the
C++ code truncates (bitfield assignment, `uint16_t` overflow on `++generation`,
`(uint32_t)` casts of sizes).  Debug `assert`s are compiled out in release
builds, so the accessors are total here, reading with an explicit default
exactly where the C++ release build would perform an unchecked access.
-/

namespace Griffin

/-- The packed 64-bit id of `handle_map.h` (struct `Id_T`).  Fields mirror the
bitfield: `index` 32 bits, `generation` 16 bits, `typeId` 15 bits, `free` 1 bit. -/
structure Id_T where
  index : Nat
  generation : Nat
  typeId : Nat
  free : Nat
deriving DecidableEq, Repr

/-- The zero id, `NullId_T` in the source. -/
def Id_T.null : Id_T := ⟨0, 0, 0, 0⟩

instance : Inhabited Id_T := ⟨Id_T.null⟩

/-- Well-formedness of an id: each field fits its bitfield width. -/
def Id_T.WF (a : Id_T) : Prop :=
  a.index < 2 ^ 32 ∧ a.generation < 2 ^ 16 ∧ a.typeId < 2 ^ 15 ∧ a.free < 2

instance (a : Id_T) : Decidable a.WF := by unfold Id_T.WF; infer_instance

/-- The unioned `value` member: the four bitfields packed into one 64-bit
number, `index` in the low bits, then `generation`, `typeId`, `free`. -/
def Id_T.value (a : Id_T) : Nat :=
  a.index + 2 ^ 32 * a.generation + 2 ^ 48 * a.typeId + 2 ^ 63 * a.free

/-- Source `operator==`: comparison of the packed values. -/
def idEq (a b : Id_T) : Bool := a.value == b.value

/-- Source `operator!=`: comparison of the packed values. -/
def idNe (a b : Id_T) : Bool := a.value != b.value

/-- Source `operator<`: comparison of the packed values. -/
def idLt (a b : Id_T) : Bool := decide (a.value < b.value)

/-- Source `operator>`: comparison of the packed values. -/
def idGt (a b : Id_T) : Bool := decide (b.value < a.value)

/-- Lexicographic strict order on the fields with priority
`free`, then `typeId`, then `generation`, then `index` (the spec's ordering
key priority for sorting handle collections). -/
def lexLt (a b : Id_T) : Prop :=
  a.free < b.free ∨ (a.free = b.free ∧
    (a.typeId < b.typeId ∨ (a.typeId = b.typeId ∧
      (a.generation < b.generation ∨ (a.generation = b.generation ∧
        a.index < b.index)))))

instance (a b : Id_T) : Decidable (lexLt a b) := by unfold lexLt; infer_instance

/-- Per-item metadata (struct `Meta_T`): the back-reference from a dense
position to the sparse-table slot that owns it. -/
structure Meta_T where
  denseToSparse : Nat
deriving DecidableEq, Repr

instance : Inhabited Meta_T := ⟨⟨0⟩⟩

/-- State of a `handle_map<T>`.  `cap` models `m_items.capacity()`: it starts
at the constructor's `reserveCount` and only ever grows with the dense size
(the minimal behaviour the C++ standard guarantees for `std::vector`). -/
structure HandleMap (T : Type) where
  freeListFront : Nat
  freeListBack : Nat
  itemTypeId : Nat
  fragmented : Nat
  sparseIds : List Id_T
  items : List T
  meta : List Meta_T
  cap : Nat
deriving DecidableEq, Repr

/-- The constructor `handle_map(itemTypeId, reserveCount)`. -/
def mkHandleMap (T : Type) (itemTypeId reserveCount : Nat) : HandleMap T :=
  ⟨0xFFFFFFFF, 0xFFFFFFFF, itemTypeId, 0, [], [], [], reserveCount⟩

namespace HandleMap

variable {T : Type} [Inhabited T]

/-- Source `freeListEmpty()`. -/
def freeListEmpty (s : HandleMap T) : Bool := s.freeListFront == 0xFFFFFFFF

/-- Source `size()`: size of the dense items array. -/
def size (s : HandleMap T) : Nat := s.items.length

/-- Source `capacity()`: capacity of the dense items array. -/
def capacity (s : HandleMap T) : Nat := s.cap

/-- Write `l[t].index = v` on a list of ids, leaving the other fields of the
entry untouched (the source mutates only the `index` bitfield). -/
def setIdxField (l : List Id_T) (t v : Nat) : List Id_T :=
  l.set t { l.getD t Id_T.null with index := v }

/-- Source `isValid(handle)`. -/
def isValid (s : HandleMap T) (h : Id_T) : Bool :=
  if h.index ≥ s.sparseIds.length then
    false
  else
    decide ((s.sparseIds.getD h.index Id_T.null).index < s.items.length) &&
      (h.typeId == s.itemTypeId) &&
      (h.generation == (s.sparseIds.getD h.index Id_T.null).generation)

/-- Source `insert(T&& i)` (`handle_map-inl.h` lines 26-66).  Returns the new
handle together with the updated container.  `m_sparseIds.at(outerIndex)` is
modelled as a defaulted read; in every state the source itself can reach
without prior corruption, `outerIndex` is in range. -/
def insert (s : HandleMap T) (i : T) : Id_T × HandleMap T :=
  let s0 : HandleMap T := { s with fragmented := 1 }
  if s0.freeListFront = 0xFFFFFFFF then
    let innerId : Id_T :=
      ⟨s0.items.length % 2 ^ 32, 1, s0.itemTypeId % 2 ^ 15, 0⟩
    let handle : Id_T := { innerId with index := s0.sparseIds.length % 2 ^ 32 }
    let s1 : HandleMap T := { s0 with sparseIds := s0.sparseIds ++ [innerId] }
    (handle,
      { s1 with
          items := s1.items ++ [i]
          meta := s1.meta ++ [⟨handle.index⟩]
          cap := max s1.cap (s1.items.length + 1) })
  else
    let outerIndex := s0.freeListFront
    let innerId := s0.sparseIds.getD outerIndex Id_T.null
    let front1 := innerId.index
    let back1 := if front1 = 0xFFFFFFFF then front1 else s0.freeListBack
    let innerId1 : Id_T := { innerId with free := 0, index := s0.items.length % 2 ^ 32 }
    let handle : Id_T := { innerId1 with index := outerIndex }
    let s1 : HandleMap T :=
      { s0 with
          freeListFront := front1
          freeListBack := back1
          sparseIds := s0.sparseIds.set outerIndex innerId1 }
    (handle,
      { s1 with
          items := s1.items ++ [i]
          meta := s1.meta ++ [⟨handle.index⟩]
          cap := max s1.cap (s1.items.length + 1) })

/-- First phase of the source `erase` (`handle_map-inl.h` lines 99-118): set
the fragmented flag, overwrite the sparse entry with its freed form
(`free = 1`, generation bumped modulo the 16-bit field width, `index` set to
the `0xFFFFFFFF` sentinel) and append the slot to the free-list tail. -/
def eraseFree (s : HandleMap T) (h : Id_T) : HandleMap T :=
  let freed : Id_T :=
    { s.sparseIds.getD h.index Id_T.null with
        free := 1
        generation := ((s.sparseIds.getD h.index Id_T.null).generation + 1) % 2 ^ 16
        index := 0xFFFFFFFF }
  let s2 : HandleMap T :=
    { s with fragmented := 1, sparseIds := s.sparseIds.set h.index freed }
  if s.freeListFront = 0xFFFFFFFF then
    { s2 with freeListFront := h.index, freeListBack := h.index }
  else
    { s2 with
        sparseIds := setIdxField s2.sparseIds s.freeListBack h.index
        freeListBack := h.index }

/-- Second phase of the source `erase` (`handle_map-inl.h` lines 120-130):
swap the erased dense entry and its metadata with the last ones, redirect the
sparse entry named by the swapped-in metadata to the vacated position, then
pop the dense arrays.  `innerIndex` is the erased item's dense position, read
before the sparse entry was freed. -/
def eraseSwapPop (s : HandleMap T) (innerIndex : Nat) : HandleMap T :=
  let s4 : HandleMap T :=
    if 1 < s.items.length then
      let lastPos := s.items.length - 1
      let itms := ((s.items.set innerIndex (s.items.getD lastPos default)).set
        lastPos (s.items.getD innerIndex default))
      let mta := ((s.meta.set innerIndex (s.meta.getD lastPos default)).set
        lastPos (s.meta.getD innerIndex default))
      let fixIdx := (mta.getD innerIndex default).denseToSparse
      { s with
          items := itms
          meta := mta
          sparseIds := setIdxField s.sparseIds fixIdx innerIndex }
    else s
  { s4 with items := s4.items.dropLast, meta := s4.meta.dropLast }

/-- Source `erase(Id_T handle)` (`handle_map-inl.h` lines 93-133).  Returns the
removed count (`0` or `1`) with the updated container.  `m_sparseIds[...]`
writes are modelled with defaulted reads; in every state the source reaches
without prior corruption the indices are in range. -/
def erase (s : HandleMap T) (h : Id_T) : Nat × HandleMap T :=
  if isValid s h = true then
    (1, eraseSwapPop (eraseFree s h) (s.sparseIds.getD h.index Id_T.null).index)
  else (0, s)

/-- Source `eraseItems(handles)` (`handle_map-inl.h` lines 136-144): erase each
handle in order, summing the per-handle counts. -/
def eraseItems (s : HandleMap T) (hs : List Id_T) : Nat × HandleMap T :=
  hs.foldl (fun acc h => ((erase acc.2 h).1 + acc.1, (erase acc.2 h).2)) (0, s)

/-- The re-threading loop of `clear()`: entry at running position `base + k`
gets `free = 1`, an incremented generation and `index = base + k + 1`. -/
def clearThread (base : Nat) : List Id_T → List Id_T
  | [] => []
  | e :: rest =>
    { e with
        free := 1
        generation := (e.generation + 1) % 2 ^ 16
        index := base + 1 } :: clearThread (base + 1) rest

/-- Source `clear()` (`handle_map-inl.h` lines 147-168).  `size` is the
`uint32_t` cast of the sparse-table length; the loop touches entries
`0 .. size-1` and the last of them gets the end-of-list sentinel. -/
def clear (s : HandleMap T) : HandleMap T :=
  let sz := s.sparseIds.length % 2 ^ 32
  if 0 < sz then
    let sp := clearThread 0 (s.sparseIds.take sz) ++ s.sparseIds.drop sz
    let sp := setIdxField sp (sz - 1) 0xFFFFFFFF
    { s with
        items := []
        meta := []
        freeListFront := 0
        freeListBack := sz - 1
        fragmented := 0
        sparseIds := sp }
  else s

/-- Source `reset()` (`handle_map-inl.h` lines 171-181).  Capacity is kept. -/
def reset (s : HandleMap T) : HandleMap T :=
  { s with
      freeListFront := 0xFFFFFFFF
      freeListBack := 0xFFFFFFFF
      fragmented := 0
      items := []
      meta := []
      sparseIds := [] }

/-- Source `at(handle)` (`handle_map-inl.h` lines 184-196).  The `assert`s are
debug-only; the release build performs the two unchecked reads modelled here
with defaulted accesses. -/
def at_ (s : HandleMap T) (h : Id_T) : T :=
  let innerId := s.sparseIds.getD h.index Id_T.null
  s.items.getD innerId.index default

/-- Source `getInnerIndex(handle)` (`handle_map-inl.h` lines 229-241). -/
def getInnerIndex (s : HandleMap T) (h : Id_T) : Nat :=
  (s.sparseIds.getD h.index Id_T.null).index

/-- Inner `while` loop of `defragment`'s standard (move-based) implementation
(`handle_map-inl.h` lines 278-287).  `jp` stands for `j + 1` of the source, so
the loop runs while `jp > 0`, the budget allows, and `comp (items[jp-1]) tmp`;
each pass shifts the element and its metadata one slot right and fixes the
shifted element's sparse back-reference.  Returns the updated arrays, the swap
count and the final `j1` (the landing position). -/
def stdInner (comp : T → T → Bool) (maxSwaps : Nat) (tmp : T) :
    Nat → List T → List Meta_T → List Id_T → Nat →
      List T × List Meta_T × List Id_T × Nat × Nat
  | 0, items, meta, sparse, swaps => (items, meta, sparse, swaps, 0)
  | jp + 1, items, meta, sparse, swaps =>
    if (maxSwaps = 0 ∨ swaps < maxSwaps) ∧ comp (items.getD jp default) tmp = true then
      let items1 := items.set (jp + 1) (items.getD jp default)
      let meta1 := meta.set (jp + 1) (meta.getD jp default)
      let sparse1 := setIdxField sparse (meta1.getD (jp + 1) default).denseToSparse (jp + 1)
      stdInner comp maxSwaps tmp jp items1 meta1 sparse1 (swaps + 1)
    else (items, meta, sparse, swaps, jp + 1)

/-- Outer `for` loop of `defragment`, standard implementation
(`handle_map-inl.h` lines 252-295 with the `else` body).  Structural fuel
bounds the iteration count; callers pass `items.length`, which the loop never
exhausts since `i` starts at `1` and increases each pass. -/
def stdLoop (comp : T → T → Bool) (maxSwaps : Nat) :
    Nat → Nat → List T → List Meta_T → List Id_T → Nat →
      List T × List Meta_T × List Id_T × Nat × Nat
  | 0, i, items, meta, sparse, swaps => (items, meta, sparse, swaps, i)
  | fuel + 1, i, items, meta, sparse, swaps =>
    if i < items.length ∧ (maxSwaps = 0 ∨ swaps < maxSwaps) then
      let tmp := items.getD i default
      let tmpMeta := meta.getD i default
      let r := stdInner comp maxSwaps tmp i items meta sparse swaps
      let j1 := r.2.2.2.2
      if j1 ≠ i then
        let items2 := r.1.set j1 tmp
        let meta2 := r.2.1.set j1 tmpMeta
        let sparse2 := setIdxField r.2.2.1 (meta2.getD j1 default).denseToSparse j1
        stdLoop comp maxSwaps fuel (i + 1) items2 meta2 sparse2 r.2.2.2.1
      else
        stdLoop comp maxSwaps fuel (i + 1) r.1 r.2.1 r.2.2.1 r.2.2.2.1
    else (items, meta, sparse, swaps, i)

/-- Source `defragment(comp, maxSwaps)` instantiated at a type that is NOT
trivially copyable, i.e. taking the "standard implementation" branch. -/
def defragmentStd (s : HandleMap T) (comp : T → T → Bool) (maxSwaps : Nat) :
    Nat × HandleMap T :=
  if s.fragmented = 0 then (0, s)
  else
    let r := stdLoop comp maxSwaps s.items.length 1 s.items s.meta s.sparseIds 0
    (r.2.2.2.1,
      { s with
          items := r.1
          meta := r.2.1
          sparseIds := r.2.2.1
          fragmented := if r.2.2.2.2 = r.1.length then 0 else s.fragmented })

/-- Inner scan of `defragment`'s trivially-copyable implementation
(`handle_map-inl.h` lines 261-265): walk left while `comp (items[jp-1]) tmp`,
updating each scanned element's sparse back-reference to its future position
`jp`, without any budget check and without moving data yet.  Returns the
updated sparse table and the landing position `j1`. -/
def trivInner (comp : T → T → Bool) (tmp : T) :
    Nat → List T → List Meta_T → List Id_T → List Id_T × Nat
  | 0, _, _, sparse => (sparse, 0)
  | jp + 1, items, meta, sparse =>
    if comp (items.getD jp default) tmp = true then
      trivInner comp tmp jp items meta
        (setIdxField sparse (meta.getD jp default).denseToSparse (jp + 1))
    else (sparse, jp + 1)

/-- The `memmove` block shift of the trivially-copyable path: positions
`j1+1 .. i` receive the old positions `j1 .. i-1` and `tmp` lands at `j1`. -/
def blockMove (l : List α) (j1 i : Nat) (tmp : α) : List α :=
  l.take j1 ++ tmp :: ((l.drop j1).take (i - j1)) ++ l.drop (i + 1)

/-- Outer `for` loop of `defragment`, trivially-copyable implementation
(`handle_map-inl.h` lines 252-295 with the `if` body): the budget is only
checked between elements, and a relocated element counts as one swap no matter
how far it moved. -/
def trivLoop (comp : T → T → Bool) (maxSwaps : Nat) :
    Nat → Nat → List T → List Meta_T → List Id_T → Nat →
      List T × List Meta_T × List Id_T × Nat × Nat
  | 0, i, items, meta, sparse, swaps => (items, meta, sparse, swaps, i)
  | fuel + 1, i, items, meta, sparse, swaps =>
    if i < items.length ∧ (maxSwaps = 0 ∨ swaps < maxSwaps) then
      let tmp := items.getD i default
      let tmpMeta := meta.getD i default
      let r := trivInner comp tmp i items meta sparse
      let j1 := r.2
      if j1 ≠ i then
        let items1 := blockMove items j1 i tmp
        let meta1 := blockMove meta j1 i tmpMeta
        let sparse2 := setIdxField r.1 (meta1.getD j1 default).denseToSparse j1
        trivLoop comp maxSwaps fuel (i + 1) items1 meta1 sparse2 (swaps + 1)
      else
        trivLoop comp maxSwaps fuel (i + 1) items meta r.1 swaps
    else (items, meta, sparse, swaps, i)

/-- Source `defragment(comp, maxSwaps)` instantiated at a trivially copyable
type, i.e. taking the `memmove`-based branch. -/
def defragmentTriv (s : HandleMap T) (comp : T → T → Bool) (maxSwaps : Nat) :
    Nat × HandleMap T :=
  if s.fragmented = 0 then (0, s)
  else
    let r := trivLoop comp maxSwaps s.items.length 1 s.items s.meta s.sparseIds 0
    (r.2.2.2.1,
      { s with
          items := r.1
          meta := r.2.1
          sparseIds := r.2.2.1
          fragmented := if r.2.2.2.2 = r.1.length then 0 else s.fragmented })

/-- Source `defragment`, with the compile-time `std::is_trivially_copyable`
branch made an explicit boolean parameter. -/
def defragment (tc : Bool) (s : HandleMap T) (comp : T → T → Bool) (maxSwaps : Nat) :
    Nat × HandleMap T :=
  if tc then defragmentTriv s comp maxSwaps else defragmentStd s comp maxSwaps

end HandleMap

/-- Property checker for the compaction claims: no adjacent pair `(prev, next)`
of the dense sequence has `comp prev next` (in the source's convention `comp a
b` means `a` is ordered after `b`, so this says the order demanded by `comp`
holds everywhere). -/
def ordered (comp : T → T → Bool) : List T → Bool
  | [] => true
  | [_] => true
  | a :: b :: rest => !comp a b && ordered comp (b :: rest)

/-- Property checker for the free-list claim: follow the `index` links of the
sparse table from slot `cur`, collecting visited slots, until the `0xFFFFFFFF`
sentinel; `none` if the walk does not reach the sentinel within the given
fuel.  A well-formed free-list is fully walked with fuel `length + 1`. -/
def freeWalk (sp : List Id_T) : Nat → Nat → Option (List Nat)
  | 0, _ => none
  | fuel + 1, cur =>
    if cur = 0xFFFFFFFF then some []
    else
      match freeWalk sp fuel (sp.getD cur Id_T.null).index with
      | none => none
      | some rest => some (cur :: rest)

/-! ### Auxiliary states and sequences used by the claim proofs -/

/-- Container state with a single occupied slot of generation `g`, as produced
by inserting one item into a fresh container and then performing erase/insert
reuse cycles on it. -/
def oneSlotState (g : Nat) : HandleMap Nat :=
  ⟨0xFFFFFFFF, 0xFFFFFFFF, 0, 1, [⟨0, g, 0, 0⟩], [0], [⟨0⟩], 1⟩

/-- One erase/insert reuse cycle on the single-slot container: erase the
currently valid handle, then insert a new item, which pops the freed slot. -/
def reuseCycle (s : HandleMap Nat) : HandleMap Nat :=
  (HandleMap.insert
    (HandleMap.erase s ⟨0, (s.sparseIds.getD 0 Id_T.null).generation, 0, 0⟩).2 0).2

/-- The container after `k` reuse cycles, starting from one fresh insert. -/
def cycles : Nat → HandleMap Nat
  | 0 => oneSlotState 1
  | k + 1 => reuseCycle (cycles k)

/-- The sequence of one-slot right shifts performed by the generic
defragment path while inserting one element: positions `a+1 .. b` receive
the old positions `a .. b-1`, applied from the top index down (exactly the
order of the source's inner `while` loop writes). -/
def shiftSeg (d : α) (a : Nat) : Nat → List α → List α
  | 0, l => l
  | b + 1, l => if b + 1 ≤ a then l else shiftSeg d a b (l.set (b + 1) (l.getD b d))

/-! ### List access helpers -/

theorem getD_set_self {α : Type _} (l : List α) (i : Nat) (a d : α) (h : i < l.length) :
    (l.set i a).getD i d = a := by
  simp [List.getD_eq_getElem?_getD, List.getElem?_set_self, h]

theorem getD_set_ne {α : Type _} (l : List α) {i j : Nat} (a d : α) (h : i ≠ j) :
    (l.set i a).getD j d = l.getD j d := by
  simp [List.getD_eq_getElem?_getD, List.getElem?_set_ne h]

theorem length_setIdxField (l : List Id_T) (t v : Nat) :
    (HandleMap.setIdxField l t v).length = l.length := by
  simp [HandleMap.setIdxField]

theorem setIdxField_getD_ne {t j : Nat} (l : List Id_T) (v : Nat) (d : Id_T) (h : t ≠ j) :
    (HandleMap.setIdxField l t v).getD j d = l.getD j d :=
  getD_set_ne l _ d h

theorem setIdxField_getD_self (l : List Id_T) (t v : Nat) (d : Id_T) (h : t < l.length) :
    (HandleMap.setIdxField l t v).getD t d = { l.getD t d with index := v } := by
  unfold HandleMap.setIdxField
  rw [getD_set_self _ _ _ _ h, List.getD_eq_getElem l Id_T.null h, List.getD_eq_getElem l d h]

theorem setIdxField_generation (l : List Id_T) (t v j : Nat) (d : Id_T) :
    ((HandleMap.setIdxField l t v).getD j d).generation = (l.getD j d).generation := by
  by_cases hj : t = j
  · subst hj
    by_cases hl : t < l.length
    · rw [setIdxField_getD_self l t v d hl]
    · unfold HandleMap.setIdxField
      rw [List.set_eq_of_length_le (Nat.le_of_not_lt hl)]
  · rw [setIdxField_getD_ne l v d hj]

/-! ### Validity and erase lemmas -/

theorem isValid_spec {T : Type} [Inhabited T] {s : HandleMap T} {h : Id_T}
    (hv : HandleMap.isValid s h = true) :
    h.index < s.sparseIds.length ∧
    (s.sparseIds.getD h.index Id_T.null).index < s.items.length ∧
    h.typeId = s.itemTypeId ∧
    h.generation = (s.sparseIds.getD h.index Id_T.null).generation := by
  unfold HandleMap.isValid at hv
  by_cases hge : h.index ≥ s.sparseIds.length
  · rw [if_pos hge] at hv; cases hv
  · rw [if_neg hge] at hv
    simp only [Bool.and_eq_true, decide_eq_true_eq, beq_iff_eq] at hv
    exact ⟨Nat.lt_of_not_le hge, hv.1.1, hv.1.2, hv.2⟩

theorem isValid_false_of_gen_ne {T : Type} [Inhabited T] {s : HandleMap T} {h : Id_T}
    (hg : h.generation ≠ (s.sparseIds.getD h.index Id_T.null).generation) :
    HandleMap.isValid s h = false := by
  unfold HandleMap.isValid
  by_cases hge : h.index ≥ s.sparseIds.length
  · rw [if_pos hge]
  · rw [if_neg hge]
    have hbe : (h.generation == (s.sparseIds.getD h.index Id_T.null).generation) = false := by
      simpa using hg
    simp only [hbe, Bool.and_false]

theorem eraseFree_facts {T : Type} [Inhabited T] (s : HandleMap T) (h : Id_T) :
    (HandleMap.eraseFree s h).freeListFront
      = (if s.freeListFront = 0xFFFFFFFF then h.index else s.freeListFront) ∧
    (HandleMap.eraseFree s h).freeListBack = h.index ∧
    (HandleMap.eraseFree s h).items = s.items ∧
    (HandleMap.eraseFree s h).meta = s.meta ∧
    (HandleMap.eraseFree s h).itemTypeId = s.itemTypeId ∧
    (HandleMap.eraseFree s h).fragmented = 1 ∧
    (HandleMap.eraseFree s h).cap = s.cap ∧
    (HandleMap.eraseFree s h).sparseIds.length = s.sparseIds.length := by
  unfold HandleMap.eraseFree
  by_cases hfe : s.freeListFront = 0xFFFFFFFF <;>
    simp [hfe, length_setIdxField]

theorem eraseFree_generation {T : Type} [Inhabited T] (s : HandleMap T) (h : Id_T)
    (hidx : h.index < s.sparseIds.length) (j : Nat) (d : Id_T) :
    ((HandleMap.eraseFree s h).sparseIds.getD j d).generation
      = (if j = h.index
         then ((s.sparseIds.getD h.index Id_T.null).generation + 1) % 2 ^ 16
         else (s.sparseIds.getD j d).generation) := by
  unfold HandleMap.eraseFree
  by_cases hfe : s.freeListFront = 0xFFFFFFFF
  · simp only [hfe, if_true, eq_self_iff_true]
    by_cases hj : j = h.index
    · subst hj; rw [if_pos rfl]
      rw [getD_set_self _ _ _ _ hidx]
    · rw [if_neg hj]
      rw [getD_set_ne _ _ _ fun he => hj he.symm]
  · simp only [hfe, if_false]
    rw [setIdxField_generation]
    by_cases hj : j = h.index
    · subst hj; rw [if_pos rfl, getD_set_self _ _ _ _ hidx]
    · rw [if_neg hj, getD_set_ne _ _ _ fun he => hj he.symm]

theorem eraseFree_getD_ne {T : Type} [Inhabited T] (s : HandleMap T) (h : Id_T)
    (j : Nat) (d : Id_T) (hj1 : j ≠ h.index)
    (hj2 : s.freeListFront = 0xFFFFFFFF ∨ j ≠ s.freeListBack) :
    (HandleMap.eraseFree s h).sparseIds.getD j d = s.sparseIds.getD j d := by
  unfold HandleMap.eraseFree
  by_cases hfe : s.freeListFront = 0xFFFFFFFF
  · simp only [hfe, if_true, eq_self_iff_true]
    rw [getD_set_ne _ _ _ fun he => hj1 he.symm]
  · rcases hj2 with hj2 | hj2
    · exact absurd hj2 hfe
    · simp only [hfe, if_false]
      rw [setIdxField_getD_ne _ _ _ fun he => hj2 he.symm,
        getD_set_ne _ _ _ fun he => hj1 he.symm]

theorem eraseFree_getD_back {T : Type} [Inhabited T] (s : HandleMap T) (h : Id_T)
    (d : Id_T) (hne : s.freeListFront ≠ 0xFFFFFFFF)
    (hbl : s.freeListBack < s.sparseIds.length) :
    ((HandleMap.eraseFree s h).sparseIds.getD s.freeListBack d).index = h.index := by
  unfold HandleMap.eraseFree
  simp only [hne, if_false]
  rw [setIdxField_getD_self _ _ _ _ (by simpa using hbl)]

theorem eraseSwapPop_facts {T : Type} [Inhabited T] (s : HandleMap T) (innerIndex : Nat) :
    (HandleMap.eraseSwapPop s innerIndex).freeListFront = s.freeListFront ∧
    (HandleMap.eraseSwapPop s innerIndex).freeListBack = s.freeListBack ∧
    (HandleMap.eraseSwapPop s innerIndex).itemTypeId = s.itemTypeId ∧
    (HandleMap.eraseSwapPop s innerIndex).fragmented = s.fragmented ∧
    (HandleMap.eraseSwapPop s innerIndex).cap = s.cap ∧
    (HandleMap.eraseSwapPop s innerIndex).sparseIds.length = s.sparseIds.length ∧
    (HandleMap.eraseSwapPop s innerIndex).items.length = s.items.length - 1 ∧
    (HandleMap.eraseSwapPop s innerIndex).meta.length = s.meta.length - 1 := by
  unfold HandleMap.eraseSwapPop
  by_cases hc : 1 < s.items.length <;> simp [hc, length_setIdxField]

theorem eraseSwapPop_generation {T : Type} [Inhabited T] (s : HandleMap T)
    (innerIndex j : Nat) (d : Id_T) :
    ((HandleMap.eraseSwapPop s innerIndex).sparseIds.getD j d).generation
      = (s.sparseIds.getD j d).generation := by
  unfold HandleMap.eraseSwapPop
  by_cases hc : 1 < s.items.length
  · simp only [hc, if_true, eq_self_iff_true]
    rw [setIdxField_generation]
  · simp [hc]

theorem swap_getD_first {α : Type _} [Inhabited α] (l : List α) (a b : Nat)
    (ha : a < l.length) (hb : b < l.length) :
    ((l.set a (l.getD b default)).set b (l.getD a default)).getD a default
      = l.getD b default := by
  by_cases he : a = b
  · subst he
    rw [getD_set_self _ _ _ _ (by simpa using ha)]
  · rw [getD_set_ne _ _ _ fun hx => he hx.symm, getD_set_self _ _ _ _ ha]

theorem eraseSwapPop_sparse_getD {T : Type} [Inhabited T] (s : HandleMap T)
    (innerIndex j : Nat) (d : Id_T)
    (hml : s.meta.length = s.items.length) (hin : innerIndex < s.items.length)
    (hj : 1 < s.items.length →
      j ≠ (s.meta.getD (s.items.length - 1) default).denseToSparse) :
    (HandleMap.eraseSwapPop s innerIndex).sparseIds.getD j d
      = s.sparseIds.getD j d := by
  unfold HandleMap.eraseSwapPop
  by_cases hc : 1 < s.items.length
  · simp only [hc, if_true, eq_self_iff_true]
    rw [swap_getD_first s.meta innerIndex (s.items.length - 1)
      (by omega) (by omega)]
    exact setIdxField_getD_ne _ _ _ fun he => (hj hc) he.symm
  · simp [hc]

theorem erase_invalid {T : Type} [Inhabited T] {s : HandleMap T} {h : Id_T}
    (hv : HandleMap.isValid s h = false) :
    HandleMap.erase s h = (0, s) := by
  unfold HandleMap.erase
  rw [hv]
  simp

theorem erase_valid_shape {T : Type} [Inhabited T] {s : HandleMap T} {h : Id_T}
    (hv : HandleMap.isValid s h = true) :
    HandleMap.erase s h
      = (1, HandleMap.eraseSwapPop (HandleMap.eraseFree s h)
          (s.sparseIds.getD h.index Id_T.null).index) := by
  unfold HandleMap.erase
  rw [hv]
  simp

theorem erase_valid_core {T : Type} [Inhabited T] {s : HandleMap T} {h : Id_T}
    (hv : HandleMap.isValid s h = true) :
    (HandleMap.erase s h).1 = 1 ∧
    (HandleMap.erase s h).2.freeListFront
      = (if s.freeListFront = 0xFFFFFFFF then h.index else s.freeListFront) ∧
    (HandleMap.erase s h).2.freeListBack = h.index ∧
    (HandleMap.erase s h).2.sparseIds.length = s.sparseIds.length ∧
    (HandleMap.erase s h).2.items.length = s.items.length - 1 ∧
    (HandleMap.erase s h).2.meta.length = s.meta.length - 1 ∧
    (HandleMap.erase s h).2.itemTypeId = s.itemTypeId := by
  obtain ⟨hfr, hba, hit, hme, hty, hfg, hcp, hsl⟩ :=
    eraseFree_facts s h
  obtain ⟨pfr, pba, pty, pfg, pcp, psl, pil, pml⟩ :=
    eraseSwapPop_facts (HandleMap.eraseFree s h)
      (s.sparseIds.getD h.index Id_T.null).index
  rw [erase_valid_shape hv]
  refine ⟨rfl, ?_, ?_, ?_, ?_, ?_, ?_⟩
  · rw [pfr, hfr]
  · rw [pba, hba]
  · rw [psl, hsl]
  · rw [pil, hit]
  · rw [pml, hme]
  · rw [pty, hty]

theorem erase_generation {T : Type} [Inhabited T] {s : HandleMap T} {h : Id_T}
    (hv : HandleMap.isValid s h = true) (j : Nat) (d : Id_T) :
    ((HandleMap.erase s h).2.sparseIds.getD j d).generation
      = (if j = h.index
         then ((s.sparseIds.getD h.index Id_T.null).generation + 1) % 2 ^ 16
         else (s.sparseIds.getD j d).generation) := by
  rw [erase_valid_shape hv]
  dsimp only
  rw [eraseSwapPop_generation, eraseFree_generation s h (isValid_spec hv).1 j d]

theorem erase_stale_self {T : Type} [Inhabited T] {s : HandleMap T} {h : Id_T}
    (hv : HandleMap.isValid s h = true) :
    HandleMap.isValid (HandleMap.erase s h).2 h = false := by
  apply isValid_false_of_gen_ne
  rw [erase_generation hv h.index Id_T.null, if_pos rfl]
  have hgen := (isValid_spec hv).2.2.2
  have h16 : (2 : Nat) ^ 16 = 65536 := by norm_num
  rw [← hgen, h16]
  omega

theorem eraseItems_go {T : Type} [Inhabited T] (hs : List Id_T) :
    ∀ (s : HandleMap T) (a : Nat),
      List.foldl
        (fun acc h => ((HandleMap.erase acc.2 h).1 + acc.1, (HandleMap.erase acc.2 h).2))
        (a, s) hs
      = (a + (HandleMap.eraseItems s hs).1, (HandleMap.eraseItems s hs).2) := by
  induction hs with
  | nil => intro s a; simp [HandleMap.eraseItems]
  | cons h t ih =>
    intro s a
    unfold HandleMap.eraseItems
    rw [List.foldl_cons, List.foldl_cons]
    dsimp only
    rw [ih, ih, Prod.mk.injEq]
    exact ⟨by omega, rfl⟩

/-! ### Claim theorems -/

/-- Claim C1 (refuted by the code, `code_bug`): the free-list invariant is
broken on a concrete reachable state.  Insert two items into a fresh
container, then erase the second handle: its item is the last dense element,
so the swap-with-last is a self-swap, and the back-reference fix-up
`m_sparseIds[m_meta.at(innerIndex).denseToSparse].index = innerIndex`
(`handle_map-inl.h` line 126) targets the slot that was just freed,
overwriting its `0xFFFFFFFF` sentinel with its own position `1`.  The freed
slot is the free-list `back` yet links to itself, so the walk from `front`
revisits slot `1` forever and never terminates at the sentinel. -/
theorem C1_freelist_selfloop :
    (HandleMap.insert (HandleMap.insert (mkHandleMap Nat 0 0) 10).2 20).1
        = ⟨1, 1, 0, 0⟩ ∧
    (HandleMap.erase (HandleMap.insert (HandleMap.insert (mkHandleMap Nat 0 0)
        10).2 20).2 ⟨1, 1, 0, 0⟩).2.freeListFront = 1 ∧
    (HandleMap.erase (HandleMap.insert (HandleMap.insert (mkHandleMap Nat 0 0)
        10).2 20).2 ⟨1, 1, 0, 0⟩).2.freeListBack = 1 ∧
    ((HandleMap.erase (HandleMap.insert (HandleMap.insert (mkHandleMap Nat 0 0)
        10).2 20).2 ⟨1, 1, 0, 0⟩).2.sparseIds.getD 1 Id_T.null).free = 1 ∧
    ((HandleMap.erase (HandleMap.insert (HandleMap.insert (mkHandleMap Nat 0 0)
        10).2 20).2 ⟨1, 1, 0, 0⟩).2.sparseIds.getD 1 Id_T.null).index = 1 ∧
    ((HandleMap.erase (HandleMap.insert (HandleMap.insert (mkHandleMap Nat 0 0)
        10).2 20).2 ⟨1, 1, 0, 0⟩).2.sparseIds.getD 1 Id_T.null).index
        ≠ 0xFFFFFFFF ∧
    freeWalk
      (HandleMap.erase (HandleMap.insert (HandleMap.insert (mkHandleMap Nat 0 0)
        10).2 20).2 ⟨1, 1, 0, 0⟩).2.sparseIds
      ((HandleMap.erase (HandleMap.insert (HandleMap.insert (mkHandleMap Nat 0 0)
        10).2 20).2 ⟨1, 1, 0, 0⟩).2.sparseIds.length + 1)
      (HandleMap.erase (HandleMap.insert (HandleMap.insert (mkHandleMap Nat 0 0)
        10).2 20).2 ⟨1, 1, 0, 0⟩).2.freeListFront = none := by
  decide

/-- Claim C2 (refuted by the code, `code_bug`): continuing the C1 scenario,
the corrupted free-list makes `insert` pop the same sparse slot twice while
it is occupied.  After `insert 10; insert 20; erase h1; insert 30; insert 40`
the inserts of `30` and of `40` return the *same* handle `⟨1,2,0,0⟩`; that
still-valid handle now resolves to `40` although the last value written for
it was `30`, `size()` is `3`, and dense storage still holds the unreachable
item `30` — so dense storage is not exactly the set of non-erased items and
`size()` exceeds the number of valid handles. -/
theorem C2_swap_removal_broken :
    (HandleMap.insert (HandleMap.erase (HandleMap.insert (HandleMap.insert
        (mkHandleMap Nat 0 0) 10).2 20).2 ⟨1, 1, 0, 0⟩).2 30).1 = ⟨1, 2, 0, 0⟩ ∧
    (HandleMap.insert (HandleMap.insert (HandleMap.erase (HandleMap.insert
        (HandleMap.insert (mkHandleMap Nat 0 0) 10).2 20).2 ⟨1, 1, 0, 0⟩).2
        30).2 40).1 = ⟨1, 2, 0, 0⟩ ∧
    HandleMap.isValid (HandleMap.insert (HandleMap.insert (HandleMap.erase
        (HandleMap.insert (HandleMap.insert (mkHandleMap Nat 0 0) 10).2 20).2
        ⟨1, 1, 0, 0⟩).2 30).2 40).2 ⟨1, 2, 0, 0⟩ = true ∧
    HandleMap.at_ (HandleMap.insert (HandleMap.insert (HandleMap.erase
        (HandleMap.insert (HandleMap.insert (mkHandleMap Nat 0 0) 10).2 20).2
        ⟨1, 1, 0, 0⟩).2 30).2 40).2 ⟨1, 2, 0, 0⟩ = 40 ∧
    HandleMap.size (HandleMap.insert (HandleMap.insert (HandleMap.erase
        (HandleMap.insert (HandleMap.insert (mkHandleMap Nat 0 0) 10).2 20).2
        ⟨1, 1, 0, 0⟩).2 30).2 40).2 = 3 ∧
    (HandleMap.insert (HandleMap.insert (HandleMap.erase (HandleMap.insert
        (HandleMap.insert (mkHandleMap Nat 0 0) 10).2 20).2 ⟨1, 1, 0, 0⟩).2
        30).2 40).2.items = [10, 30, 40] := by
  decide

/-- Claim C3 (refuted by the code, `code_bug`): on the non-trivially-copyable
path, a swap budget that runs out inside the final element's inner shift loop
leaves that element short of its sorted position while the outer index `i`
still reaches `m_items.size()`, so `m_fragmented` is cleared even though the
pass was incomplete.  Every later `defragment` call, with any budget and any
predicate, then short-circuits to `0` and the dense sequence stays unsorted
forever: on `[2, 3, 1]` with `comp = (greater-than)` and `maxSwaps = 1` the
result is `[2, 1, 3]` with the fragmented flag cleared, and repeated calls
with larger (or unlimited) budgets change nothing. -/
theorem C3_defragment_stuck_unsorted :
    (HandleMap.insert (HandleMap.insert (HandleMap.insert (mkHandleMap Nat 0 0)
        2).2 3).2 1).2.items = [2, 3, 1] ∧
    (HandleMap.insert (HandleMap.insert (HandleMap.insert (mkHandleMap Nat 0 0)
        2).2 3).2 1).2.fragmented = 1 ∧
    (HandleMap.defragmentStd (HandleMap.insert (HandleMap.insert
        (HandleMap.insert (mkHandleMap Nat 0 0) 2).2 3).2 1).2
        (fun a b : Nat => decide (a > b)) 1).1 = 1 ∧
    (HandleMap.defragmentStd (HandleMap.insert (HandleMap.insert
        (HandleMap.insert (mkHandleMap Nat 0 0) 2).2 3).2 1).2
        (fun a b : Nat => decide (a > b)) 1).2.items = [2, 1, 3] ∧
    (HandleMap.defragmentStd (HandleMap.insert (HandleMap.insert
        (HandleMap.insert (mkHandleMap Nat 0 0) 2).2 3).2 1).2
        (fun a b : Nat => decide (a > b)) 1).2.fragmented = 0 ∧
    HandleMap.defragmentStd
      (HandleMap.defragmentStd (HandleMap.insert (HandleMap.insert
        (HandleMap.insert (mkHandleMap Nat 0 0) 2).2 3).2 1).2
        (fun a b : Nat => decide (a > b)) 1).2
      (fun a b : Nat => decide (a > b)) 2
      = (0, (HandleMap.defragmentStd (HandleMap.insert (HandleMap.insert
          (HandleMap.insert (mkHandleMap Nat 0 0) 2).2 3).2 1).2
          (fun a b : Nat => decide (a > b)) 1).2) ∧
    HandleMap.defragmentStd
      (HandleMap.defragmentStd (HandleMap.insert (HandleMap.insert
        (HandleMap.insert (mkHandleMap Nat 0 0) 2).2 3).2 1).2
        (fun a b : Nat => decide (a > b)) 1).2
      (fun a b : Nat => decide (a > b)) 0
      = (0, (HandleMap.defragmentStd (HandleMap.insert (HandleMap.insert
          (HandleMap.insert (mkHandleMap Nat 0 0) 2).2 3).2 1).2
          (fun a b : Nat => decide (a > b)) 1).2) ∧
    ordered (fun a b : Nat => decide (a > b))
      (HandleMap.defragmentStd (HandleMap.insert (HandleMap.insert
        (HandleMap.insert (mkHandleMap Nat 0 0) 2).2 3).2 1).2
        (fun a b : Nat => decide (a > b)) 1).2.items = false := by
  decide

/-- Claim C9 (refuted by the code, `corrected`): under a finite swap budget
the two `defragment` implementations are observably different.  On the same
reachable state holding `[2, 3, 1]` with `comp = (greater-than)` and
`maxSwaps = 1`, the trivially-copyable path (budget checked only between
elements) finishes the sort and yields dense order `[1, 2, 3]`, while the
generic path (budget checked inside the shift loop) stops mid-insertion and
yields `[2, 1, 3]`; the metadata arrays and sparse back-references differ
correspondingly. -/
theorem C9_paths_observably_differ :
    let s := (HandleMap.insert (HandleMap.insert
      (HandleMap.insert (mkHandleMap Nat 0 0) 2).2 3).2 1).2
    let comp := fun a b : Nat => decide (a > b)
    let rT := HandleMap.defragmentTriv s comp 1
    let rS := HandleMap.defragmentStd s comp 1
    rT.2.items = [1, 2, 3] ∧ rS.2.items = [2, 1, 3] ∧
    rT.2.items ≠ rS.2.items ∧ rT.2.meta ≠ rS.2.meta ∧
    rT.2.sparseIds ≠ rS.2.sparseIds := by
  decide

/-- Claim C6 (refuted as stated, `corrected`): the FIFO-reuse scenario fails
from a container state whose free-list is non-empty.  Insert four items
(handles `hA..hD`), erase `hA` (its slot goes to the free-list), then erase
`h1, h2, h3 := hB, hC, hD` in order and insert one item: the insert reuses
`hA`'s outer index `0`, not `h1`'s outer index `1`, because the free-list
already held slot `0` in front of the three newly freed slots. -/
theorem C6_fifo_counterexample :
    let mA := HandleMap.insert (mkHandleMap Nat 7 0) 100
    let mB := HandleMap.insert mA.2 200
    let mC := HandleMap.insert mB.2 300
    let mD := HandleMap.insert mC.2 400
    let n1 := (HandleMap.erase mD.2 mA.1).2
    let n2 := (HandleMap.erase n1 mB.1).2
    let n3 := (HandleMap.erase n2 mC.1).2
    let n4 := (HandleMap.erase n3 mD.1).2
    mB.1.index = 1 ∧
    HandleMap.isValid n1 mB.1 = true ∧
    HandleMap.isValid n2 mC.1 = true ∧
    HandleMap.isValid n3 mD.1 = true ∧
    (HandleMap.erase n1 mB.1).1 = 1 ∧
    (HandleMap.erase n2 mC.1).1 = 1 ∧
    (HandleMap.erase n3 mD.1).1 = 1 ∧
    (HandleMap.insert n4 500).1.index = 0 ∧
    (HandleMap.insert n4 500).1.index ≠ mB.1.index := by
  decide

/-! ### Packed-value arithmetic for C8 -/

theorem addMul_lt_iff {B x1 x2 y1 y2 : Nat} (hx : x1 < B) (hy : y1 < B) :
    x1 + B * x2 < y1 + B * y2 ↔ x2 < y2 ∨ (x2 = y2 ∧ x1 < y1) := by
  constructor
  · intro hlt
    rcases Nat.lt_trichotomy x2 y2 with h | h | h
    · exact Or.inl h
    · exact Or.inr ⟨h, by subst h; omega⟩
    · exfalso
      have hmono : y1 + B * y2 < x1 + B * x2 := by
        calc y1 + B * y2 < B + B * y2 := by omega
          _ = B * (y2 + 1) := by ring
          _ ≤ B * x2 := Nat.mul_le_mul_left B h
          _ ≤ x1 + B * x2 := by omega
      omega
  · intro h
    rcases h with h | ⟨h, hx1⟩
    · calc x1 + B * x2 < B + B * x2 := by omega
        _ = B * (x2 + 1) := by ring
        _ ≤ B * y2 := Nat.mul_le_mul_left B h
        _ ≤ y1 + B * y2 := by omega
    · subst h; omega

theorem addMul_eq_iff {B x1 x2 y1 y2 : Nat} (hx : x1 < B) (hy : y1 < B) :
    x1 + B * x2 = y1 + B * y2 ↔ x1 = y1 ∧ x2 = y2 := by
  constructor
  · intro he
    have hB : 0 < B := by omega
    have h1 : (x1 + B * x2) % B = (y1 + B * y2) % B := by rw [he]
    have h2 : (x1 + B * x2) / B = (y1 + B * y2) / B := by rw [he]
    rw [Nat.add_mul_mod_self_left, Nat.add_mul_mod_self_left,
      Nat.mod_eq_of_lt hx, Nat.mod_eq_of_lt hy] at h1
    rw [Nat.add_mul_div_left _ _ hB, Nat.add_mul_div_left _ _ hB,
      Nat.div_eq_of_lt hx, Nat.div_eq_of_lt hy] at h2
    exact ⟨h1, by omega⟩
  · rintro ⟨rfl, rfl⟩; rfl

theorem value_nested (a : Id_T) :
    a.value = a.index + 2 ^ 32 * (a.generation + 2 ^ 16 * (a.typeId + 2 ^ 15 * a.free)) := by
  unfold Id_T.value; ring

theorem value_eq_iff {a b : Id_T} (ha : a.WF) (hb : b.WF) :
    a.value = b.value ↔ a = b := by
  obtain ⟨ha1, ha2, ha3, ha4⟩ := ha
  obtain ⟨hb1, hb2, hb3, hb4⟩ := hb
  have hA2 : a.generation + 2 ^ 16 * (a.typeId + 2 ^ 15 * a.free) < 2 ^ 32 := by omega
  have hB2 : b.generation + 2 ^ 16 * (b.typeId + 2 ^ 15 * b.free) < 2 ^ 32 := by omega
  have hA3 : a.typeId + 2 ^ 15 * a.free < 2 ^ 16 := by omega
  have hB3 : b.typeId + 2 ^ 15 * b.free < 2 ^ 16 := by omega
  rw [value_nested, value_nested, addMul_eq_iff ha1 hb1, addMul_eq_iff ha2 hb2,
    addMul_eq_iff ha3 hb3]
  cases a; cases b
  simp only [Id_T.mk.injEq]

theorem value_lt_iff {a b : Id_T} (ha : a.WF) (hb : b.WF) :
    a.value < b.value ↔ lexLt a b := by
  obtain ⟨ha1, ha2, ha3, ha4⟩ := ha
  obtain ⟨hb1, hb2, hb3, hb4⟩ := hb
  have hA2 : a.generation + 2 ^ 16 * (a.typeId + 2 ^ 15 * a.free) < 2 ^ 32 := by omega
  have hB2 : b.generation + 2 ^ 16 * (b.typeId + 2 ^ 15 * b.free) < 2 ^ 32 := by omega
  have hA3 : a.typeId + 2 ^ 15 * a.free < 2 ^ 16 := by omega
  have hB3 : b.typeId + 2 ^ 15 * b.free < 2 ^ 16 := by omega
  rw [value_nested, value_nested, addMul_lt_iff ha1 hb1, addMul_lt_iff ha2 hb2,
    addMul_eq_iff ha2 hb2, addMul_lt_iff ha3 hb3, addMul_eq_iff ha3 hb3]
  unfold lexLt
  tauto

/-- Claim C4 (confirmed): erasing an invalid handle returns a zero count and
leaves the container unchanged; the batch erase folds the single erase over
the handles, its count being the sum of the per-handle erase results on the
sequentially updated state; and a duplicate or already-stale handle in a
batch is a no-op, because erasing a valid handle leaves that same handle
invalid, so a second erase of it returns 0 and changes nothing. -/
theorem C4_erase_error_handling (T : Type) [Inhabited T] (s : HandleMap T)
    (h : Id_T) (hs : List Id_T) :
    (HandleMap.isValid s h = false → HandleMap.erase s h = (0, s)) ∧
    HandleMap.eraseItems s [] = (0, s) ∧
    HandleMap.eraseItems s (h :: hs)
      = ((HandleMap.erase s h).1 + (HandleMap.eraseItems (HandleMap.erase s h).2 hs).1,
         (HandleMap.eraseItems (HandleMap.erase s h).2 hs).2) ∧
    (HandleMap.isValid s h = true →
      (HandleMap.erase s h).1 = 1 ∧
      HandleMap.isValid (HandleMap.erase s h).2 h = false ∧
      HandleMap.erase (HandleMap.erase s h).2 h = (0, (HandleMap.erase s h).2)) := by
  refine ⟨fun hv => erase_invalid hv, by simp [HandleMap.eraseItems], ?_, fun hv => ?_⟩
  · show List.foldl
        (fun acc hh => ((HandleMap.erase acc.2 hh).1 + acc.1, (HandleMap.erase acc.2 hh).2))
        (0, s) (h :: hs)
      = ((HandleMap.erase s h).1 + (HandleMap.eraseItems (HandleMap.erase s h).2 hs).1,
         (HandleMap.eraseItems (HandleMap.erase s h).2 hs).2)
    rw [List.foldl_cons]
    dsimp only
    rw [eraseItems_go, Prod.mk.injEq]
    exact ⟨by omega, rfl⟩
  · exact ⟨(erase_valid_core hv).1, erase_stale_self hv,
      erase_invalid (erase_stale_self hv)⟩

/-- Witness for C4 at a concrete one-item container: an out-of-range handle
is rejected without side effects, and a just-erased handle is stale. -/
theorem C4_erase_error_handling_witness :
    (HandleMap.isValid (HandleMap.insert (mkHandleMap Nat 0 0) 5).2 ⟨3, 1, 0, 0⟩ = false ∧
      HandleMap.erase (HandleMap.insert (mkHandleMap Nat 0 0) 5).2 ⟨3, 1, 0, 0⟩
        = (0, (HandleMap.insert (mkHandleMap Nat 0 0) 5).2)) ∧
    (HandleMap.isValid (HandleMap.insert (mkHandleMap Nat 0 0) 5).2 ⟨0, 1, 0, 0⟩ = true ∧
      HandleMap.isValid
        (HandleMap.erase (HandleMap.insert (mkHandleMap Nat 0 0) 5).2 ⟨0, 1, 0, 0⟩).2
        ⟨0, 1, 0, 0⟩ = false) :=
  ⟨⟨by decide,
     (C4_erase_error_handling Nat (HandleMap.insert (mkHandleMap Nat 0 0) 5).2
        ⟨3, 1, 0, 0⟩ []).1 (by decide)⟩,
   ⟨by decide,
     ((C4_erase_error_handling Nat (HandleMap.insert (mkHandleMap Nat 0 0) 5).2
        ⟨0, 1, 0, 0⟩ []).2.2.2 (by decide)).2.1⟩⟩

/-- Claim C8 (confirmed): on well-formed ids (each field within its bitfield
width), the packed-value comparison operators of the source are exactly
bit-exact field equality/inequality and the strict total order that is
lexicographic on the fields with priority `free`, `typeId`, `generation`,
`index`; totality (trichotomy) holds as well. -/
theorem C8_packed_comparisons (a b : Id_T) (ha : a.WF) (hb : b.WF) :
    (idEq a b = true ↔ a = b) ∧
    (idNe a b = true ↔ a ≠ b) ∧
    (idLt a b = true ↔ lexLt a b) ∧
    (idGt a b = true ↔ lexLt b a) ∧
    (lexLt a b ∨ a = b ∨ lexLt b a) := by
  have he := value_eq_iff ha hb
  have hl := value_lt_iff ha hb
  have hg := value_lt_iff hb ha
  refine ⟨?_, ?_, ?_, ?_, ?_⟩
  · simpa [idEq] using he
  · simpa [idNe] using he.not
  · simpa [idLt] using hl
  · simpa [idGt] using hg
  · rcases Nat.lt_trichotomy a.value b.value with h | h | h
    · exact Or.inl (hl.mp h)
    · exact Or.inr (Or.inl (he.mp h))
    · exact Or.inr (Or.inr (hg.mp h))

/-- Witness for C8 at concrete well-formed ids. -/
theorem C8_packed_comparisons_witness :
    (Id_T.WF ⟨7, 3, 5, 0⟩ ∧ Id_T.WF ⟨2, 3, 5, 1⟩) ∧
    (idLt ⟨7, 3, 5, 0⟩ ⟨2, 3, 5, 1⟩ = true ↔ lexLt ⟨7, 3, 5, 0⟩ ⟨2, 3, 5, 1⟩) :=
  ⟨⟨by decide, by decide⟩,
    (C8_packed_comparisons ⟨7, 3, 5, 0⟩ ⟨2, 3, 5, 1⟩ (by decide) (by decide)).2.2.1⟩

/-! ### Insert lemmas -/

theorem insert_pop_facts {T : Type} [Inhabited T] (s : HandleMap T) (x : T)
    (hne : s.freeListFront ≠ 0xFFFFFFFF) :
    (HandleMap.insert s x).1
      = { index := s.freeListFront
          generation := (s.sparseIds.getD s.freeListFront Id_T.null).generation
          typeId := (s.sparseIds.getD s.freeListFront Id_T.null).typeId
          free := 0 } ∧
    (HandleMap.insert s x).2.freeListFront
      = (s.sparseIds.getD s.freeListFront Id_T.null).index ∧
    (HandleMap.insert s x).2.sparseIds.length = s.sparseIds.length ∧
    (∀ j d, j ≠ s.freeListFront →
      (HandleMap.insert s x).2.sparseIds.getD j d = s.sparseIds.getD j d) ∧
    (s.freeListFront < s.sparseIds.length →
      ((HandleMap.insert s x).2.sparseIds.getD s.freeListFront Id_T.null).generation
        = (s.sparseIds.getD s.freeListFront Id_T.null).generation) := by
  unfold HandleMap.insert
  simp only [hne, if_false]
  refine ⟨trivial, trivial, by simp, fun j d hj => ?_, fun hfl => ?_⟩
  · exact getD_set_ne _ _ _ fun he => hj he.symm
  · rw [getD_set_self _ _ _ _ hfl]

theorem reuseCycle_oneSlot (g : Nat) :
    reuseCycle (oneSlotState g) = oneSlotState ((g + 1) % 2 ^ 16) := by
  simp [reuseCycle, oneSlotState, HandleMap.erase, HandleMap.isValid,
    HandleMap.eraseFree, HandleMap.eraseSwapPop, HandleMap.insert,
    HandleMap.setIdxField]

theorem cycles_eq (k : Nat) : cycles k = oneSlotState ((1 + k) % 2 ^ 16) := by
  induction k with
  | zero =>
    unfold cycles
    norm_num
  | succ k ih =>
    show reuseCycle (cycles k) = _
    rw [ih, reuseCycle_oneSlot, Nat.mod_add_mod]
    congr 1

/-- Claim C5 (refuted as stated, `corrected`): the generation field is 16 bits
wide and wraps.  Inserting into a fresh container issues handle `⟨0,1,0,0⟩`;
after 65536 erase/insert reuse cycles of outer index `0` the container is back
in the very state it started from, the 65536-th reuse issues a handle whose
generation is again `1` — not strictly greater than the generation `1` of the
originally issued handle — and the original handle, stale in between, is
revalidated (`isValid` is `true` again). -/
theorem C5_generation_wrap_cex :
    HandleMap.insert (mkHandleMap Nat 0 0) 0 = (⟨0, 1, 0, 0⟩, oneSlotState 1) ∧
    cycles 65535 = oneSlotState 0 ∧
    (HandleMap.insert (HandleMap.erase (oneSlotState 0) ⟨0, 0, 0, 0⟩).2 0).1
      = ⟨0, 1, 0, 0⟩ ∧
    ¬ 1 < 1 ∧
    cycles 65536 = oneSlotState 1 ∧
    HandleMap.isValid (oneSlotState 1) ⟨0, 1, 0, 0⟩ = true := by
  refine ⟨by decide, ?_, by decide, by decide, ?_, by decide⟩
  · rw [cycles_eq]; norm_num
  · show reuseCycle (cycles 65535) = _
    rw [cycles_eq]
    norm_num [reuseCycle_oneSlot]

/-- Claim C5 amended (proved): when `insert` reuses the freed slot of a just
erased valid handle and the slot's generation does not wrap (it was below
`2^16 - 1`), the returned handle carries generation exactly one greater than
the erased handle's, hence strictly greater, and the old handle is not
revalidated by the reuse. -/
theorem C5_generation_monotone (T : Type) [Inhabited T] (s : HandleMap T)
    (h : Id_T) (x : T)
    (hv : HandleMap.isValid s h = true)
    (hpop : (HandleMap.erase s h).2.freeListFront = h.index)
    (hcap : s.sparseIds.length ≤ 0xFFFFFFFF)
    (hnw : (s.sparseIds.getD h.index Id_T.null).generation + 1 < 2 ^ 16) :
    (HandleMap.insert (HandleMap.erase s h).2 x).1.index = h.index ∧
    (HandleMap.insert (HandleMap.erase s h).2 x).1.generation = h.generation + 1 ∧
    h.generation < (HandleMap.insert (HandleMap.erase s h).2 x).1.generation ∧
    HandleMap.isValid (HandleMap.insert (HandleMap.erase s h).2 x).2 h = false := by
  have hidx := (isValid_spec hv).1
  have hgen := (isValid_spec hv).2.2.2
  have hlen := (erase_valid_core hv).2.2.2.1
  have hne : (HandleMap.erase s h).2.freeListFront ≠ 0xFFFFFFFF := by
    rw [hpop]; omega
  obtain ⟨hh, hfr, hsl, hoff, hgat⟩ := insert_pop_facts (HandleMap.erase s h).2 x hne
  have hg1 : ((HandleMap.erase s h).2.sparseIds.getD h.index Id_T.null).generation
      = (s.sparseIds.getD h.index Id_T.null).generation + 1 := by
    rw [erase_generation hv h.index Id_T.null, if_pos rfl, Nat.mod_eq_of_lt hnw]
  refine ⟨?_, ?_, ?_, ?_⟩
  · rw [hh, hpop]
  · rw [hh]
    simp only [hpop]
    rw [hg1, ← hgen]
  · rw [hh]
    simp only [hpop]
    rw [hg1, ← hgen]
    omega
  · apply isValid_false_of_gen_ne
    rw [show (HandleMap.insert (HandleMap.erase s h).2 x).2.sparseIds.getD h.index Id_T.null
        = (HandleMap.insert (HandleMap.erase s h).2 x).2.sparseIds.getD
            (HandleMap.erase s h).2.freeListFront Id_T.null by rw [hpop]]
    rw [hgat (by rw [hpop]; omega)]
    rw [show (HandleMap.erase s h).2.sparseIds.getD (HandleMap.erase s h).2.freeListFront
          Id_T.null
        = (HandleMap.erase s h).2.sparseIds.getD h.index Id_T.null by rw [hpop]]
    rw [hg1, ← hgen]
    omega

/-- Witness for the amended C5 on a concrete one-item container. -/
theorem C5_generation_monotone_witness :
    (HandleMap.isValid (HandleMap.insert (mkHandleMap Nat 0 0) 5).2 ⟨0, 1, 0, 0⟩ = true ∧
      (HandleMap.erase (HandleMap.insert (mkHandleMap Nat 0 0) 5).2
        ⟨0, 1, 0, 0⟩).2.freeListFront = 0) ∧
    (HandleMap.insert
      (HandleMap.erase (HandleMap.insert (mkHandleMap Nat 0 0) 5).2 ⟨0, 1, 0, 0⟩).2
      9).1.generation = 2 ∧
    HandleMap.isValid
      (HandleMap.insert
        (HandleMap.erase (HandleMap.insert (mkHandleMap Nat 0 0) 5).2 ⟨0, 1, 0, 0⟩).2
        9).2 ⟨0, 1, 0, 0⟩ = false :=
  ⟨⟨by decide, by decide⟩,
    (C5_generation_monotone Nat (HandleMap.insert (mkHandleMap Nat 0 0) 5).2
      ⟨0, 1, 0, 0⟩ 9 (by decide) (by decide) (by decide) (by decide)).2.1,
    (C5_generation_monotone Nat (HandleMap.insert (mkHandleMap Nat 0 0) 5).2
      ⟨0, 1, 0, 0⟩ 9 (by decide) (by decide) (by decide) (by decide)).2.2.2⟩

/-! ### C7: clear and reset -/

theorem clearThread_length (base : Nat) (l : List Id_T) :
    (HandleMap.clearThread base l).length = l.length := by
  induction l generalizing base with
  | nil => rfl
  | cons e rest ih => simp [HandleMap.clearThread, ih]

theorem clearThread_getD (l : List Id_T) :
    ∀ (base j : Nat) (d : Id_T), j < l.length →
      (HandleMap.clearThread base l).getD j d
        = { l.getD j d with
            free := 1
            generation := ((l.getD j d).generation + 1) % 2 ^ 16
            index := base + j + 1 } := by
  induction l with
  | nil => intro base j d hj; simp at hj
  | cons e rest ih =>
    intro base j d hj
    cases j with
    | zero => simp [HandleMap.clearThread]
    | succ j =>
      have hj2 : j < rest.length := by simpa using hj
      have hL : HandleMap.clearThread base (e :: rest)
          = ({ e with
                free := 1
                generation := (e.generation + 1) % 2 ^ 16
                index := base + 1 } : Id_T) :: HandleMap.clearThread (base + 1) rest := rfl
      rw [hL, List.getD_cons_succ, List.getD_cons_succ, ih (base + 1) j d hj2]
      have harith : base + 1 + j + 1 = base + (j + 1) + 1 := by omega
      rw [harith]

theorem isValid_of_empty {T : Type} [Inhabited T] {s : HandleMap T}
    (hempty : s.items.length = 0) (h : Id_T) :
    HandleMap.isValid s h = false := by
  unfold HandleMap.isValid
  by_cases hge : h.index ≥ s.sparseIds.length
  · rw [if_pos hge]
  · rw [if_neg hge, hempty]
    simp

theorem clear_shape {T : Type} [Inhabited T] (s : HandleMap T)
    (hsz : s.sparseIds.length < 2 ^ 32) (hpos : 0 < s.sparseIds.length) :
    HandleMap.clear s
      = { s with
          items := []
          meta := []
          freeListFront := 0
          freeListBack := s.sparseIds.length - 1
          fragmented := 0
          sparseIds := HandleMap.setIdxField (HandleMap.clearThread 0 s.sparseIds)
            (s.sparseIds.length - 1) 0xFFFFFFFF } := by
  unfold HandleMap.clear
  rw [Nat.mod_eq_of_lt hsz]
  rw [if_pos hpos]
  rw [List.take_length, List.drop_length, List.append_nil]

/-- Claim C7 (confirmed): after `clear()` the container is empty and every
handle whatsoever (in particular every handle issued before the clear) is
stale, every sparse entry's generation is incremented (mod the 16-bit field)
with `free = 1`, and the entries are re-threaded into one free-list in index
order ending in the sentinel; after `reset()` the container is empty and
`capacity()` is unchanged, but staleness is not guaranteed: concretely,
inserting, resetting and inserting again re-issues the bitwise-identical
handle, so the pre-reset handle validates again. -/
theorem C7_clear_vs_reset (T : Type) [Inhabited T] (s : HandleMap T)
    (hlen : s.items.length ≤ s.sparseIds.length)
    (hsz : s.sparseIds.length < 2 ^ 32) :
    HandleMap.size (HandleMap.clear s) = 0 ∧
    (∀ h : Id_T, HandleMap.isValid (HandleMap.clear s) h = false) ∧
    (∀ j, j < s.sparseIds.length →
      ((HandleMap.clear s).sparseIds.getD j Id_T.null).free = 1 ∧
      ((HandleMap.clear s).sparseIds.getD j Id_T.null).generation
        = ((s.sparseIds.getD j Id_T.null).generation + 1) % 2 ^ 16 ∧
      ((HandleMap.clear s).sparseIds.getD j Id_T.null).index
        = (if j = s.sparseIds.length - 1 then 0xFFFFFFFF else j + 1)) ∧
    (0 < s.sparseIds.length →
      (HandleMap.clear s).freeListFront = 0 ∧
      (HandleMap.clear s).freeListBack = s.sparseIds.length - 1) ∧
    HandleMap.size (HandleMap.reset s) = 0 ∧
    HandleMap.capacity (HandleMap.reset s) = HandleMap.capacity s ∧
    ((HandleMap.insert
        (HandleMap.reset (HandleMap.insert (mkHandleMap Nat 3 5) 42).2) 99).1
      = (HandleMap.insert (mkHandleMap Nat 3 5) 42).1 ∧
     HandleMap.isValid
        (HandleMap.insert
          (HandleMap.reset (HandleMap.insert (mkHandleMap Nat 3 5) 42).2) 99).2
        (HandleMap.insert (mkHandleMap Nat 3 5) 42).1 = true) := by
  have hitems : (HandleMap.clear s).items.length = 0 := by
    by_cases hpos : 0 < s.sparseIds.length
    · rw [clear_shape s hsz hpos]
      rfl
    · have h0 : s.sparseIds.length = 0 := by omega
      have hi0 : s.items.length = 0 := by omega
      unfold HandleMap.clear
      rw [Nat.mod_eq_of_lt hsz, h0]
      simp [hi0]
  refine ⟨hitems, fun h => isValid_of_empty hitems h, fun j hj => ?_, fun hpos => ?_,
    rfl, rfl, by decide, by decide⟩
  · have hpos : 0 < s.sparseIds.length := by omega
    rw [clear_shape s hsz hpos]
    have hlt : j < (HandleMap.clearThread 0 s.sparseIds).length := by
      rw [clearThread_length]; exact hj
    by_cases hje : j = s.sparseIds.length - 1
    · subst hje
      rw [setIdxField_getD_self _ _ _ _ hlt,
        clearThread_getD s.sparseIds 0 _ Id_T.null hj]
      exact ⟨rfl, rfl, by rw [if_pos rfl]⟩
    · rw [setIdxField_getD_ne _ _ _ fun he => hje he.symm,
        clearThread_getD s.sparseIds 0 j Id_T.null hj]
      refine ⟨rfl, rfl, ?_⟩
      rw [if_neg hje]
      show 0 + j + 1 = j + 1
      omega
  · rw [clear_shape s hsz hpos]
    exact ⟨rfl, rfl⟩

/-- Witness for C7 at a concrete one-item container. -/
theorem C7_clear_vs_reset_witness :
    ((HandleMap.insert (mkHandleMap Nat 0 0) 5).2.items.length
        ≤ (HandleMap.insert (mkHandleMap Nat 0 0) 5).2.sparseIds.length ∧
      (HandleMap.insert (mkHandleMap Nat 0 0) 5).2.sparseIds.length < 2 ^ 32) ∧
    (HandleMap.size (HandleMap.clear (HandleMap.insert (mkHandleMap Nat 0 0) 5).2) = 0 ∧
      HandleMap.isValid (HandleMap.clear (HandleMap.insert (mkHandleMap Nat 0 0) 5).2)
        ⟨0, 1, 0, 0⟩ = false ∧
      HandleMap.size (HandleMap.reset (HandleMap.insert (mkHandleMap Nat 0 0) 5).2) = 0) :=
  ⟨⟨by decide, by decide⟩,
    (C7_clear_vs_reset Nat (HandleMap.insert (mkHandleMap Nat 0 0) 5).2
      (by decide) (by decide)).1,
    (C7_clear_vs_reset Nat (HandleMap.insert (mkHandleMap Nat 0 0) 5).2
      (by decide) (by decide)).2.1 ⟨0, 1, 0, 0⟩,
    (C7_clear_vs_reset Nat (HandleMap.insert (mkHandleMap Nat 0 0) 5).2
      (by decide) (by decide)).2.2.2.2.1⟩

/-! ### Defragment loop lemmas -/

theorem stdInner_lengths {T : Type} [Inhabited T] (comp : T → T → Bool)
    (maxSwaps : Nat) (tmp : T) (jp : Nat) :
    ∀ (items : List T) (meta : List Meta_T) (sparse : List Id_T) (swaps : Nat),
      (HandleMap.stdInner comp maxSwaps tmp jp items meta sparse swaps).1.length
          = items.length ∧
      (HandleMap.stdInner comp maxSwaps tmp jp items meta sparse swaps).2.1.length
          = meta.length ∧
      (HandleMap.stdInner comp maxSwaps tmp jp items meta sparse swaps).2.2.1.length
          = sparse.length := by
  induction jp with
  | zero => intro items meta sparse swaps; exact ⟨rfl, rfl, rfl⟩
  | succ jp ih =>
    intro items meta sparse swaps
    rw [HandleMap.stdInner]
    split
    · obtain ⟨h1, h2, h3⟩ := ih (items.set (jp + 1) (items.getD jp default))
        (meta.set (jp + 1) (meta.getD jp default)) _ (swaps + 1)
      refine ⟨?_, ?_, ?_⟩
      · rw [h1]; simp
      · rw [h2]; simp
      · rw [h3, length_setIdxField]
    · exact ⟨rfl, rfl, rfl⟩

theorem stdLoop_completes {T : Type} [Inhabited T] (comp : T → T → Bool) (fuel : Nat) :
    ∀ (i : Nat) (items : List T) (meta : List Meta_T) (sparse : List Id_T) (swaps : Nat),
      i ≤ items.length → items.length ≤ i + fuel →
      (HandleMap.stdLoop comp 0 fuel i items meta sparse swaps).2.2.2.2
          = (HandleMap.stdLoop comp 0 fuel i items meta sparse swaps).1.length := by
  induction fuel with
  | zero =>
    intro i items meta sparse swaps h1 h2
    have hfin : i = items.length := by omega
    exact hfin
  | succ fuel ih =>
    intro i items meta sparse swaps h1 h2
    rw [HandleMap.stdLoop]
    by_cases hc : i < items.length ∧ ((0 : Nat) = 0 ∨ swaps < 0)
    · rw [if_pos hc]
      obtain ⟨g1, g2, g3⟩ := stdInner_lengths comp 0 (items.getD i default) i items meta sparse swaps
      dsimp only
      split
      · apply ih
        · simp only [List.length_set]
          rw [g1]
          omega
        · simp only [List.length_set]
          rw [g1]
          omega
      · apply ih
        · rw [g1]; omega
        · rw [g1]; omega
    · rw [if_neg hc]
      have hi : i = items.length := by
        rcases Nat.lt_or_ge i items.length with hlt | hge
        · exact absurd ⟨hlt, Or.inl rfl⟩ hc
        · omega
      exact hi

theorem trivInner_le {T : Type} [Inhabited T] (comp : T → T → Bool) (tmp : T) (jp : Nat) :
    ∀ (items : List T) (meta : List Meta_T) (sparse : List Id_T),
      (HandleMap.trivInner comp tmp jp items meta sparse).2 ≤ jp := by
  induction jp with
  | zero => intro items meta sparse; exact Nat.le_refl 0
  | succ jp ih =>
    intro items meta sparse
    rw [HandleMap.trivInner]
    split
    · exact Nat.le_succ_of_le (ih items meta _)
    · exact Nat.le_refl _

theorem blockMove_length {α : Type _} (l : List α) (j1 i : Nat) (tmp : α)
    (hj : j1 ≤ i) (hi : i < l.length) :
    (HandleMap.blockMove l j1 i tmp).length = l.length := by
  simp [HandleMap.blockMove]
  omega

theorem trivLoop_completes {T : Type} [Inhabited T] (comp : T → T → Bool) (fuel : Nat) :
    ∀ (i : Nat) (items : List T) (meta : List Meta_T) (sparse : List Id_T) (swaps : Nat),
      i ≤ items.length → items.length ≤ i + fuel →
      (HandleMap.trivLoop comp 0 fuel i items meta sparse swaps).2.2.2.2
          = (HandleMap.trivLoop comp 0 fuel i items meta sparse swaps).1.length := by
  induction fuel with
  | zero =>
    intro i items meta sparse swaps h1 h2
    have hfin : i = items.length := by omega
    exact hfin
  | succ fuel ih =>
    intro i items meta sparse swaps h1 h2
    rw [HandleMap.trivLoop]
    by_cases hc : i < items.length ∧ ((0 : Nat) = 0 ∨ swaps < 0)
    · rw [if_pos hc]
      have hble := blockMove_length items
        (HandleMap.trivInner comp (items.getD i default) i items meta sparse).2 i
        (items.getD i default)
        (trivInner_le comp (items.getD i default) i items meta sparse) hc.1
      dsimp only
      split
      · apply ih
        · rw [hble]; omega
        · rw [hble]; omega
      · apply ih
        · omega
        · omega
    · rw [if_neg hc]
      have hi : i = items.length := by
        rcases Nat.lt_or_ge i items.length with hlt | hge
        · exact absurd ⟨hlt, Or.inl rfl⟩ hc
        · omega
      exact hi

theorem defragmentStd_completes_frag {T : Type} [Inhabited T] (s : HandleMap T)
    (comp : T → T → Bool) (hf : ¬ s.fragmented = 0) (hpos : 0 < s.items.length) :
    (HandleMap.defragmentStd s comp 0).2.fragmented = 0 := by
  unfold HandleMap.defragmentStd
  rw [if_neg hf]
  dsimp only
  rw [if_pos (stdLoop_completes comp s.items.length 1 s.items s.meta s.sparseIds 0
    (by omega) (by omega))]

theorem defragmentTriv_completes_frag {T : Type} [Inhabited T] (s : HandleMap T)
    (comp : T → T → Bool) (hf : ¬ s.fragmented = 0) (hpos : 0 < s.items.length) :
    (HandleMap.defragmentTriv s comp 0).2.fragmented = 0 := by
  unfold HandleMap.defragmentTriv
  rw [if_neg hf]
  dsimp only
  rw [if_pos (trivLoop_completes comp s.items.length 1 s.items s.meta s.sparseIds 0
    (by omega) (by omega))]

/-- Claim C10 (confirmed): the fragmented flag short-circuits `defragment`.
A container whose flag is clear — as after construction, `clear`, `reset`, or
a defragment pass that ran to completion (here: any unlimited-budget pass over
a non-empty container), with no insert or erase since, since only those set
the flag — makes `defragment` return `0` and leave the entire state unchanged
for every predicate and budget, on both implementation paths. -/
theorem C10_defragment_noop (T : Type) [Inhabited T] (s : HandleMap T)
    (comp : T → T → Bool) (maxSwaps : Nat) (tc : Bool) (tid rc : Nat) :
    (s.fragmented = 0 → HandleMap.defragment tc s comp maxSwaps = (0, s)) ∧
    (mkHandleMap T tid rc).fragmented = 0 ∧
    (HandleMap.reset s).fragmented = 0 ∧
    (0 < s.sparseIds.length → s.sparseIds.length < 2 ^ 32 →
      (HandleMap.clear s).fragmented = 0) ∧
    (0 < s.items.length →
      (HandleMap.defragment tc s comp 0).2.fragmented = 0) := by
  refine ⟨fun hf => ?_, rfl, rfl, fun hpos hsz => ?_, fun hpos => ?_⟩
  · unfold HandleMap.defragment HandleMap.defragmentTriv HandleMap.defragmentStd
    cases tc <;> simp [hf]
  · rw [clear_shape s hsz hpos]
  · by_cases hf : s.fragmented = 0
    · have hno : HandleMap.defragment tc s comp 0 = (0, s) := by
        unfold HandleMap.defragment HandleMap.defragmentTriv HandleMap.defragmentStd
        cases tc <;> simp [hf]
      rw [hno]
      exact hf
    · unfold HandleMap.defragment
      cases tc
      · rw [if_neg (by simp)]
        exact defragmentStd_completes_frag s comp hf hpos
      · rw [if_pos rfl]
        exact defragmentTriv_completes_frag s comp hf hpos

/-- Witness for C10: a freshly constructed container is non-fragmented and
`defragment` is an identity on it; a fragmented one-item container has its
flag cleared by an unlimited-budget pass. -/
theorem C10_defragment_noop_witness :
    ((mkHandleMap Nat 2 4).fragmented = 0 ∧
      HandleMap.defragment false (mkHandleMap Nat 2 4)
        (fun a b => decide (a > b)) 7 = (0, mkHandleMap Nat 2 4)) ∧
    (0 < (HandleMap.insert (mkHandleMap Nat 0 0) 5).2.items.length ∧
      (HandleMap.defragment true (HandleMap.insert (mkHandleMap Nat 0 0) 5).2
        (fun a b => decide (a > b)) 0).2.fragmented = 0) :=
  ⟨⟨by decide,
    (C10_defragment_noop Nat (mkHandleMap Nat 2 4) (fun a b => decide (a > b))
      7 false 0 0).1 (by decide)⟩,
   ⟨by decide,
    (C10_defragment_noop Nat (HandleMap.insert (mkHandleMap Nat 0 0) 5).2
      (fun a b => decide (a > b)) 7 true 0 0).2.2.2.2 (by decide)⟩⟩

/-! ### C6: FIFO reuse from an empty free-list -/

theorem erase_sparse_unchanged {T : Type} [Inhabited T] {s : HandleMap T} {h : Id_T}
    (hv : HandleMap.isValid s h = true) (hml : s.meta.length = s.items.length)
    (j : Nat) (d : Id_T)
    (hj1 : j ≠ h.index)
    (hj2 : s.freeListFront = 0xFFFFFFFF ∨ j ≠ s.freeListBack)
    (hj3 : 1 < s.items.length →
      j ≠ (s.meta.getD (s.items.length - 1) default).denseToSparse) :
    (HandleMap.erase s h).2.sparseIds.getD j d = s.sparseIds.getD j d := by
  obtain ⟨hfr, hba, hit, hme, hty, hfg, hcp, hsl⟩ := eraseFree_facts s h
  rw [erase_valid_shape hv]
  dsimp only
  rw [eraseSwapPop_sparse_getD (HandleMap.eraseFree s h)
    (s.sparseIds.getD h.index Id_T.null).index j d
    (by rw [hit, hme, hml]) (by rw [hit]; exact (isValid_spec hv).2.1)
    (by rw [hit, hme]; exact hj3)]
  exact eraseFree_getD_ne s h j d hj1 hj2

theorem erase_sparse_at_back {T : Type} [Inhabited T] {s : HandleMap T} {h : Id_T}
    (hv : HandleMap.isValid s h = true) (hml : s.meta.length = s.items.length)
    (d : Id_T)
    (hne : s.freeListFront ≠ 0xFFFFFFFF)
    (hbl : s.freeListBack < s.sparseIds.length)
    (hj3 : 1 < s.items.length →
      s.freeListBack ≠ (s.meta.getD (s.items.length - 1) default).denseToSparse) :
    ((HandleMap.erase s h).2.sparseIds.getD s.freeListBack d).index = h.index := by
  obtain ⟨hfr, hba, hit, hme, hty, hfg, hcp, hsl⟩ := eraseFree_facts s h
  rw [erase_valid_shape hv]
  dsimp only
  rw [eraseSwapPop_sparse_getD (HandleMap.eraseFree s h)
    (s.sparseIds.getD h.index Id_T.null).index s.freeListBack d
    (by rw [hit, hme, hml]) (by rw [hit]; exact (isValid_spec hv).2.1)
    (by rw [hit, hme]; exact hj3)]
  exact eraseFree_getD_back s h d hne hbl

/-- Claim C6 amended (proved): from a container state whose free-list is
empty, erasing three valid handles with distinct outer indices in order
`h1, h2, h3` and then inserting three items reuses the outer indices of
`h1, h2, h3` in that same order — insert pops the free-list front and erase
appends to the free-list back.  The back-reference hypotheses (`hml`,
`hfix2`, `hfix3`) state that the dense metadata is consistent with the
container invariants at each step: the metadata length matches the dense
length, and the last dense entry's back-reference never names an
already-freed slot. -/
theorem C6_fifo_from_empty (T : Type) [Inhabited T] (s : HandleMap T)
    (h1 h2 h3 : Id_T) (x1 x2 x3 : T)
    (hempty : s.freeListFront = 0xFFFFFFFF)
    (hcap : s.sparseIds.length ≤ 0xFFFFFFFF)
    (hml : s.meta.length = s.items.length)
    (hv1 : HandleMap.isValid s h1 = true)
    (hv2 : HandleMap.isValid (HandleMap.erase s h1).2 h2 = true)
    (hv3 : HandleMap.isValid
      (HandleMap.erase (HandleMap.erase s h1).2 h2).2 h3 = true)
    (h12 : h2.index ≠ h1.index) (h13 : h3.index ≠ h1.index) (h23 : h3.index ≠ h2.index)
    (hfix2 : 1 < (HandleMap.erase s h1).2.items.length →
      ((HandleMap.erase s h1).2.meta.getD
        ((HandleMap.erase s h1).2.items.length - 1) default).denseToSparse ≠ h1.index)
    (hfix3 : 1 < (HandleMap.erase (HandleMap.erase s h1).2 h2).2.items.length →
      ((HandleMap.erase (HandleMap.erase s h1).2 h2).2.meta.getD
          ((HandleMap.erase (HandleMap.erase s h1).2 h2).2.items.length - 1)
          default).denseToSparse ≠ h1.index ∧
      ((HandleMap.erase (HandleMap.erase s h1).2 h2).2.meta.getD
          ((HandleMap.erase (HandleMap.erase s h1).2 h2).2.items.length - 1)
          default).denseToSparse ≠ h2.index) :
    (HandleMap.insert
      (HandleMap.erase (HandleMap.erase (HandleMap.erase s h1).2 h2).2 h3).2
      x1).1.index = h1.index ∧
    (HandleMap.insert
      (HandleMap.insert
        (HandleMap.erase (HandleMap.erase (HandleMap.erase s h1).2 h2).2 h3).2
        x1).2 x2).1.index = h2.index ∧
    (HandleMap.insert
      (HandleMap.insert
        (HandleMap.insert
          (HandleMap.erase (HandleMap.erase (HandleMap.erase s h1).2 h2).2 h3).2
          x1).2 x2).2 x3).1.index = h3.index := by
  have hi1 := (isValid_spec hv1).1
  obtain ⟨c11, c12, c13, c14, c15, c16, c17⟩ := erase_valid_core hv1
  obtain ⟨c21, c22, c23, c24, c25, c26, c27⟩ := erase_valid_core hv2
  obtain ⟨c31, c32, c33, c34, c35, c36, c37⟩ := erase_valid_core hv3
  have hi2 := (isValid_spec hv2).1
  have hi3 := (isValid_spec hv3).1
  have hi2s : h2.index < s.sparseIds.length := by rw [c14] at hi2; exact hi2
  have hi3s : h3.index < s.sparseIds.length := by rw [c24, c14] at hi3; exact hi3
  have f1 : (HandleMap.erase s h1).2.freeListFront = h1.index := by
    rw [c12, if_pos hempty]
  have f1ne : (HandleMap.erase s h1).2.freeListFront ≠ 0xFFFFFFFF := by
    rw [f1]; omega
  have f2 : (HandleMap.erase (HandleMap.erase s h1).2 h2).2.freeListFront = h1.index := by
    rw [c22, if_neg f1ne, f1]
  have f2ne : (HandleMap.erase (HandleMap.erase s h1).2 h2).2.freeListFront
      ≠ 0xFFFFFFFF := by
    rw [f2]; omega
  have f3 : (HandleMap.erase (HandleMap.erase (HandleMap.erase s h1).2 h2).2
      h3).2.freeListFront = h1.index := by
    rw [c32, if_neg f2ne, f2]
  have f3ne : (HandleMap.erase (HandleMap.erase (HandleMap.erase s h1).2 h2).2
      h3).2.freeListFront ≠ 0xFFFFFFFF := by
    rw [f3]; omega
  have hml1 : (HandleMap.erase s h1).2.meta.length
      = (HandleMap.erase s h1).2.items.length := by
    rw [c15, c16, hml]
  have hml2 : (HandleMap.erase (HandleMap.erase s h1).2 h2).2.meta.length
      = (HandleMap.erase (HandleMap.erase s h1).2 h2).2.items.length := by
    rw [c25, c26, hml1]
  -- link written by the second erase: slot h1 points at h2
  have G1 : ((HandleMap.erase (HandleMap.erase s h1).2 h2).2.sparseIds.getD
      h1.index Id_T.null).index = h2.index := by
    have hb := erase_sparse_at_back hv2 hml1 Id_T.null f1ne
      (by rw [c13, c14]; exact hi1)
      (by rw [c13]; intro hlt he; exact hfix2 hlt he.symm)
    rw [c13] at hb
    exact hb
  -- that link survives the third erase
  have G2 : ((HandleMap.erase (HandleMap.erase (HandleMap.erase s h1).2 h2).2
      h3).2.sparseIds.getD h1.index Id_T.null).index = h2.index := by
    have hu := erase_sparse_unchanged hv3 hml2 h1.index Id_T.null
      (fun he => h13 he.symm)
      (Or.inr (by rw [c23]; exact fun he => h12 he.symm))
      (fun hlt he => (hfix3 hlt).1 he.symm)
    rw [hu]
    exact G1
  -- link written by the third erase: slot h2 points at h3
  have G3 : ((HandleMap.erase (HandleMap.erase (HandleMap.erase s h1).2 h2).2
      h3).2.sparseIds.getD h2.index Id_T.null).index = h3.index := by
    have hb := erase_sparse_at_back hv3 hml2 Id_T.null f2ne
      (by rw [c23, c24, c14]; exact hi2s)
      (by rw [c23]; intro hlt he; exact (hfix3 hlt).2 he.symm)
    rw [c23] at hb
    exact hb
  obtain ⟨p11, p12, p13, p14, p15⟩ := insert_pop_facts
    (HandleMap.erase (HandleMap.erase (HandleMap.erase s h1).2 h2).2 h3).2 x1 f3ne
  have e1 : (HandleMap.insert
      (HandleMap.erase (HandleMap.erase (HandleMap.erase s h1).2 h2).2 h3).2
      x1).1.index
      = (HandleMap.erase (HandleMap.erase (HandleMap.erase s h1).2 h2).2
          h3).2.freeListFront := by
    rw [p11]
  have t1front : (HandleMap.insert
      (HandleMap.erase (HandleMap.erase (HandleMap.erase s h1).2 h2).2 h3).2
      x1).2.freeListFront = h2.index := by
    rw [p12, f3]
    exact G2
  have t1ne : (HandleMap.insert
      (HandleMap.erase (HandleMap.erase (HandleMap.erase s h1).2 h2).2 h3).2
      x1).2.freeListFront ≠ 0xFFFFFFFF := by
    rw [t1front]; omega
  obtain ⟨p21, p22, p23, p24, p25⟩ := insert_pop_facts
    (HandleMap.insert
      (HandleMap.erase (HandleMap.erase (HandleMap.erase s h1).2 h2).2 h3).2
      x1).2 x2 t1ne
  have e2 : (HandleMap.insert
      (HandleMap.insert
        (HandleMap.erase (HandleMap.erase (HandleMap.erase s h1).2 h2).2 h3).2
        x1).2 x2).1.index
      = (HandleMap.insert
          (HandleMap.erase (HandleMap.erase (HandleMap.erase s h1).2 h2).2 h3).2
          x1).2.freeListFront := by
    rw [p21]
  have t2front : (HandleMap.insert
      (HandleMap.insert
        (HandleMap.erase (HandleMap.erase (HandleMap.erase s h1).2 h2).2 h3).2
        x1).2 x2).2.freeListFront = h3.index := by
    rw [p22, t1front]
    have hoff := p14 h2.index Id_T.null (by rw [f3]; exact h12)
    rw [hoff]
    exact G3
  have t2ne : (HandleMap.insert
      (HandleMap.insert
        (HandleMap.erase (HandleMap.erase (HandleMap.erase s h1).2 h2).2 h3).2
        x1).2 x2).2.freeListFront ≠ 0xFFFFFFFF := by
    rw [t2front]; omega
  obtain ⟨p31, p32, p33, p34, p35⟩ := insert_pop_facts
    (HandleMap.insert
      (HandleMap.insert
        (HandleMap.erase (HandleMap.erase (HandleMap.erase s h1).2 h2).2 h3).2
        x1).2 x2).2 x3 t2ne
  refine ⟨?_, ?_, ?_⟩
  · rw [e1, f3]
  · rw [e2, t1front]
  · rw [show (HandleMap.insert
        (HandleMap.insert
          (HandleMap.insert
            (HandleMap.erase (HandleMap.erase (HandleMap.erase s h1).2 h2).2 h3).2
            x1).2 x2).2 x3).1.index
        = (HandleMap.insert
            (HandleMap.insert
              (HandleMap.erase (HandleMap.erase (HandleMap.erase s h1).2 h2).2 h3).2
              x1).2 x2).2.freeListFront by rw [p31]]
    exact t2front

/-- Witness for the amended C6: four fresh inserts (empty free-list), erase
the first three handles in order, insert three items; the reused outer
indices come back as `0, 1, 2` in that order. -/
theorem C6_fifo_from_empty_witness :
    (HandleMap.insert (HandleMap.insert (HandleMap.insert (HandleMap.insert
      (mkHandleMap Nat 7 0) 100).2 200).2 300).2 400).2.freeListFront
        = 0xFFFFFFFF ∧
    (HandleMap.insert (HandleMap.erase (HandleMap.erase (HandleMap.erase
      (HandleMap.insert (HandleMap.insert (HandleMap.insert (HandleMap.insert
        (mkHandleMap Nat 7 0) 100).2 200).2 300).2 400).2
      ⟨0, 1, 7, 0⟩).2 ⟨1, 1, 7, 0⟩).2 ⟨2, 1, 7, 0⟩).2 500).1.index = 0 ∧
    (HandleMap.insert (HandleMap.insert (HandleMap.erase (HandleMap.erase
      (HandleMap.erase (HandleMap.insert (HandleMap.insert (HandleMap.insert
        (HandleMap.insert (mkHandleMap Nat 7 0) 100).2 200).2 300).2 400).2
      ⟨0, 1, 7, 0⟩).2 ⟨1, 1, 7, 0⟩).2 ⟨2, 1, 7, 0⟩).2 500).2 600).1.index = 1 ∧
    (HandleMap.insert (HandleMap.insert (HandleMap.insert (HandleMap.erase
      (HandleMap.erase (HandleMap.erase (HandleMap.insert (HandleMap.insert
        (HandleMap.insert (HandleMap.insert (mkHandleMap Nat 7 0) 100).2 200).2
        300).2 400).2
      ⟨0, 1, 7, 0⟩).2 ⟨1, 1, 7, 0⟩).2 ⟨2, 1, 7, 0⟩).2 500).2 600).2 700).1.index
        = 2 := by
  have H := C6_fifo_from_empty Nat
    (HandleMap.insert (HandleMap.insert (HandleMap.insert (HandleMap.insert
      (mkHandleMap Nat 7 0) 100).2 200).2 300).2 400).2
    ⟨0, 1, 7, 0⟩ ⟨1, 1, 7, 0⟩ ⟨2, 1, 7, 0⟩ 500 600 700
    (by decide) (by decide) (by decide) (by decide) (by decide) (by decide)
    (by decide) (by decide) (by decide) (by decide) (by decide)
  exact ⟨by decide, H.1, H.2.1, H.2.2⟩

/-! ### C9: the two defragment paths agree when run to completion -/

theorem length_shiftSeg (d : α) (a : Nat) :
    ∀ (b : Nat) (l : List α), (shiftSeg d a b l).length = l.length := by
  intro b
  induction b with
  | zero => intro l; rfl
  | succ b ih =>
    intro l
    rw [shiftSeg]
    by_cases hba : b + 1 ≤ a
    · rw [if_pos hba]
    · rw [if_neg hba, ih]
      simp

theorem getD_of_le {α : Type _} (l : List α) (d : α) (n : Nat) (h : l.length ≤ n) :
    l.getD n d = d := by
  simp [List.getD_eq_getElem?_getD, List.getElem?_eq_none (by simpa using h)]

theorem getD_append_lt {α : Type _} (l l2 : List α) (n : Nat) (d : α)
    (h : n < l.length) : (l ++ l2).getD n d = l.getD n d := by
  simp [List.getD_eq_getElem?_getD, List.getElem?_append, h]

theorem getD_append_ge {α : Type _} (l l2 : List α) (n : Nat) (d : α)
    (h : l.length ≤ n) : (l ++ l2).getD n d = l2.getD (n - l.length) d := by
  simp [List.getD_eq_getElem?_getD, List.getElem?_append, Nat.not_lt.mpr h]

theorem getD_take_lt {α : Type _} (l : List α) (n k : Nat) (d : α) (h : k < n) :
    (l.take n).getD k d = l.getD k d := by
  simp [List.getD_eq_getElem?_getD, List.getElem?_take, h]

theorem getD_drop {α : Type _} (l : List α) (n k : Nat) (d : α) :
    (l.drop n).getD k d = l.getD (n + k) d := by
  simp [List.getD_eq_getElem?_getD, List.getElem?_drop]

theorem shiftSeg_getD {α : Type _} (d : α) (a : Nat) :
    ∀ (b : Nat) (l : List α) (k : Nat),
      (shiftSeg d a b l).getD k d
        = if a < k ∧ k ≤ b ∧ k < l.length then l.getD (k - 1) d else l.getD k d := by
  intro b
  induction b with
  | zero =>
    intro l k
    rw [shiftSeg, if_neg (by omega)]
  | succ b ih =>
    intro l k
    rw [shiftSeg]
    by_cases hba : b + 1 ≤ a
    · rw [if_pos hba, if_neg (by omega)]
    · rw [if_neg hba, ih]
      by_cases hk : k = b + 1
      · subst hk
        rw [if_neg (by simp only [List.length_set]; omega)]
        by_cases hbl : b + 1 < l.length
        · rw [getD_set_self _ _ _ _ hbl, if_pos ⟨by omega, Nat.le_refl _, hbl⟩]
          congr 1
        · rw [List.set_eq_of_length_le (by omega), if_neg (by omega)]
      · rw [getD_set_ne _ _ _ fun he => hk he.symm]
        by_cases hc : a < k ∧ k ≤ b ∧ k < l.length
        · rw [if_pos (by simp only [List.length_set]; exact hc),
            getD_set_ne _ _ _ (show b + 1 ≠ k - 1 by omega),
            if_pos ⟨hc.1, by omega, hc.2.2⟩]
        · rw [if_neg (by simp only [List.length_set]; exact hc), if_neg (by omega)]

theorem blockMove_getD {α : Type _} (l : List α) (d : α) (j1 i : Nat) (tmp : α)
    (hj : j1 ≤ i) (hi : i < l.length) (k : Nat) :
    (HandleMap.blockMove l j1 i tmp).getD k d
      = if k < j1 then l.getD k d
        else if k = j1 then tmp
        else if k ≤ i then l.getD (k - 1) d
        else l.getD k d := by
  have htl : (l.take j1).length = j1 := by simp; omega
  have hfl : (l.take j1 ++ tmp :: (l.drop j1).take (i - j1)).length = i + 1 := by
    simp
    omega
  unfold HandleMap.blockMove
  by_cases h1 : k < j1
  · rw [getD_append_lt _ _ _ _ (by rw [hfl]; omega),
      getD_append_lt _ _ _ _ (by rw [htl]; omega),
      getD_take_lt _ _ _ _ h1, if_pos h1]
  · by_cases h2 : k = j1
    · subst h2
      rw [getD_append_lt _ _ _ _ (by rw [hfl]; omega),
        getD_append_ge _ _ _ _ (le_of_eq htl), htl, Nat.sub_self]
      simp
    · by_cases h3 : k ≤ i
      · rw [getD_append_lt _ _ _ _ (by rw [hfl]; omega),
          getD_append_ge _ _ _ _ (by rw [htl]; omega), htl]
        have hm : k - j1 = (k - j1 - 1) + 1 := by omega
        rw [hm, List.getD_cons_succ, getD_take_lt _ _ _ _ (by omega), getD_drop,
          if_neg h1, if_neg h2, if_pos h3]
        congr 1
        omega
      · rw [getD_append_ge _ _ _ _ (by rw [hfl]; omega), hfl, getD_drop,
          if_neg h1, if_neg h2, if_neg h3]
        congr 1
        omega

theorem blockMove_eq_shiftSeg {α : Type _} (l : List α) (d : α) (j1 i : Nat)
    (tmp : α) (hj : j1 ≤ i) (hi : i < l.length) :
    HandleMap.blockMove l j1 i tmp = (shiftSeg d j1 i l).set j1 tmp := by
  have hlb := blockMove_length l j1 i tmp hj hi
  have hls : ((shiftSeg d j1 i l).set j1 tmp).length = l.length := by
    simp [length_shiftSeg]
  apply List.ext_getElem (by omega)
  intro k hk1 hk2
  have hkl : k < l.length := by omega
  rw [← List.getD_eq_getElem _ d hk1, ← List.getD_eq_getElem _ d hk2,
    blockMove_getD l d j1 i tmp hj hi k]
  by_cases h2 : k = j1
  · subst h2
    rw [getD_set_self _ _ _ _ (by rw [length_shiftSeg]; omega), if_neg (by omega),
      if_pos rfl]
  · rw [getD_set_ne _ _ _ fun he => h2 he.symm, shiftSeg_getD]
    by_cases h1 : k < j1
    · rw [if_pos h1, if_neg (by omega)]
    · rw [if_neg h1]
      by_cases h3 : k ≤ i
      · rw [if_neg h2, if_pos h3, if_pos ⟨by omega, h3, hkl⟩]
      · rw [if_neg h2, if_neg h3, if_neg (by omega)]

theorem shiftSeg_self (d : α) (a : Nat) (l : List α) : shiftSeg d a a l = l := by
  cases a with
  | zero => rfl
  | succ a => rw [shiftSeg, if_pos (Nat.le_refl _)]

theorem trivInner_congr {T : Type} [Inhabited T] (comp : T → T → Bool) (tmp : T) :
    ∀ (jp : Nat) (itemsA itemsB : List T) (metaA metaB : List Meta_T)
      (sparse : List Id_T),
      (∀ k, k < jp → itemsA.getD k default = itemsB.getD k default) →
      (∀ k, k < jp → metaA.getD k default = metaB.getD k default) →
      HandleMap.trivInner comp tmp jp itemsA metaA sparse
        = HandleMap.trivInner comp tmp jp itemsB metaB sparse := by
  intro jp
  induction jp with
  | zero => intro itemsA itemsB metaA metaB sparse hA hB; rfl
  | succ jp ih =>
    intro itemsA itemsB metaA metaB sparse hA hB
    rw [HandleMap.trivInner, HandleMap.trivInner,
      hA jp (by omega), hB jp (by omega)]
    by_cases hcomp : comp (itemsB.getD jp default) tmp = true
    · rw [if_pos hcomp, if_pos hcomp]
      exact ih _ _ _ _ _ (fun k hk => hA k (by omega)) (fun k hk => hB k (by omega))
    · rw [if_neg hcomp, if_neg hcomp]

theorem stdInner_spec {T : Type} [Inhabited T] (comp : T → T → Bool) (tmp : T) :
    ∀ (jp : Nat) (items : List T) (meta : List Meta_T) (sparse : List Id_T)
      (swaps : Nat), jp < items.length → jp < meta.length →
      HandleMap.stdInner comp 0 tmp jp items meta sparse swaps
        = (shiftSeg default (HandleMap.trivInner comp tmp jp items meta sparse).2
             jp items,
           shiftSeg default (HandleMap.trivInner comp tmp jp items meta sparse).2
             jp meta,
           (HandleMap.trivInner comp tmp jp items meta sparse).1,
           swaps + (jp - (HandleMap.trivInner comp tmp jp items meta sparse).2),
           (HandleMap.trivInner comp tmp jp items meta sparse).2) := by
  intro jp
  induction jp with
  | zero =>
    intro items meta sparse swaps h1 h2
    rfl
  | succ jp ih =>
    intro items meta sparse swaps h1 h2
    rw [HandleMap.stdInner, HandleMap.trivInner]
    by_cases hcomp : comp (items.getD jp default) tmp = true
    · rw [if_pos ⟨Or.inl rfl, hcomp⟩, if_pos hcomp]
      dsimp only
      rw [getD_set_self meta (jp + 1) (meta.getD jp default) default (by omega)]
      rw [ih (items.set (jp + 1) (items.getD jp default))
        (meta.set (jp + 1) (meta.getD jp default)) _ (swaps + 1)
        (by simp only [List.length_set]; omega)
        (by simp only [List.length_set]; omega)]
      rw [trivInner_congr comp tmp jp (items.set (jp + 1) (items.getD jp default))
        items (meta.set (jp + 1) (meta.getD jp default)) meta _
        (fun k hk => getD_set_ne _ _ _ (by omega))
        (fun k hk => getD_set_ne _ _ _ (by omega))]
      have hle := trivInner_le comp tmp jp items meta
        (HandleMap.setIdxField sparse (meta.getD jp default).denseToSparse (jp + 1))
      rw [show shiftSeg default
          (HandleMap.trivInner comp tmp jp items meta
            (HandleMap.setIdxField sparse (meta.getD jp default).denseToSparse
              (jp + 1))).2 (jp + 1) items
        = shiftSeg default
            (HandleMap.trivInner comp tmp jp items meta
              (HandleMap.setIdxField sparse (meta.getD jp default).denseToSparse
                (jp + 1))).2 jp (items.set (jp + 1) (items.getD jp default))
        from by rw [shiftSeg, if_neg (by omega)]]
      rw [show shiftSeg default
          (HandleMap.trivInner comp tmp jp items meta
            (HandleMap.setIdxField sparse (meta.getD jp default).denseToSparse
              (jp + 1))).2 (jp + 1) meta
        = shiftSeg default
            (HandleMap.trivInner comp tmp jp items meta
              (HandleMap.setIdxField sparse (meta.getD jp default).denseToSparse
                (jp + 1))).2 jp (meta.set (jp + 1) (meta.getD jp default))
        from by rw [shiftSeg, if_neg (by omega)]]
      rw [show swaps + 1
            + (jp - (HandleMap.trivInner comp tmp jp items meta
                (HandleMap.setIdxField sparse (meta.getD jp default).denseToSparse
                  (jp + 1))).2)
          = swaps + (jp + 1 - (HandleMap.trivInner comp tmp jp items meta
                (HandleMap.setIdxField sparse (meta.getD jp default).denseToSparse
                  (jp + 1))).2)
        from by omega]
    · rw [if_neg (fun hc => hcomp hc.2), if_neg hcomp]
      dsimp only
      rw [shiftSeg_self, shiftSeg_self, Nat.sub_self]
      rfl

theorem trivLoop_eq_stdLoop {T : Type} [Inhabited T] (comp : T → T → Bool) :
    ∀ (fuel i : Nat) (items : List T) (meta : List Meta_T) (sparse : List Id_T)
      (sT sS : Nat), meta.length = items.length →
      (HandleMap.trivLoop comp 0 fuel i items meta sparse sT).1
          = (HandleMap.stdLoop comp 0 fuel i items meta sparse sS).1 ∧
      (HandleMap.trivLoop comp 0 fuel i items meta sparse sT).2.1
          = (HandleMap.stdLoop comp 0 fuel i items meta sparse sS).2.1 ∧
      (HandleMap.trivLoop comp 0 fuel i items meta sparse sT).2.2.1
          = (HandleMap.stdLoop comp 0 fuel i items meta sparse sS).2.2.1 ∧
      (HandleMap.trivLoop comp 0 fuel i items meta sparse sT).2.2.2.2
          = (HandleMap.stdLoop comp 0 fuel i items meta sparse sS).2.2.2.2 := by
  intro fuel
  induction fuel with
  | zero => intro i items meta sparse sT sS hm; exact ⟨rfl, rfl, rfl, rfl⟩
  | succ fuel ih =>
    intro i items meta sparse sT sS hm
    rw [HandleMap.trivLoop, HandleMap.stdLoop]
    by_cases hi : i < items.length
    · rw [if_pos (show i < items.length ∧ ((0 : Nat) = 0 ∨ sT < 0) from
          ⟨hi, Or.inl rfl⟩),
        if_pos (show i < items.length ∧ ((0 : Nat) = 0 ∨ sS < 0) from
          ⟨hi, Or.inl rfl⟩)]
      dsimp only
      rw [stdInner_spec comp (items.getD i default) i items meta sparse sS hi
        (by omega)]
      dsimp only
      by_cases hj : (HandleMap.trivInner comp (items.getD i default) i items meta
          sparse).2 ≠ i
      · rw [if_pos hj, if_pos hj]
        have hle := trivInner_le comp (items.getD i default) i items meta sparse
        rw [blockMove_eq_shiftSeg items default _ i (items.getD i default) hle hi,
          blockMove_eq_shiftSeg meta default _ i (meta.getD i default) hle
            (by omega)]
        apply ih
        simp only [List.length_set, length_shiftSeg]
        exact hm
      · rw [if_neg hj, if_neg hj]
        have he : (HandleMap.trivInner comp (items.getD i default) i items meta
            sparse).2 = i := not_ne_iff.mp hj
        rw [he, shiftSeg_self, shiftSeg_self]
        exact ih (i + 1) items meta _ sT _ hm
    · rw [if_neg (show ¬(i < items.length ∧ ((0 : Nat) = 0 ∨ sT < 0)) from
          fun hc => hi hc.1),
        if_neg (show ¬(i < items.length ∧ ((0 : Nat) = 0 ∨ sS < 0)) from
          fun hc => hi hc.1)]
      exact ⟨rfl, rfl, rfl, rfl⟩

/-- Claim C9 amended (proved): with `maxSwaps = 0` (run to completion) the
trivially-copyable `memmove` path and the generic move-based path of
`defragment` produce identical resulting containers — the same dense item
order, metadata and sparse back-references (only the returned swap counts may
differ), provided the metadata array has the dense array's length (a
container invariant). -/
theorem C9_unbudgeted_paths_agree (T : Type) [Inhabited T] (s : HandleMap T)
    (comp : T → T → Bool) (hm : s.meta.length = s.items.length) :
    (HandleMap.defragmentTriv s comp 0).2 = (HandleMap.defragmentStd s comp 0).2 := by
  unfold HandleMap.defragmentTriv HandleMap.defragmentStd
  by_cases hf : s.fragmented = 0
  · rw [if_pos hf, if_pos hf]
  · rw [if_neg hf, if_neg hf]
    dsimp only
    obtain ⟨e1, e2, e3, e5⟩ := trivLoop_eq_stdLoop comp s.items.length 1 s.items
      s.meta s.sparseIds 0 0 hm
    rw [e1, e2, e3, e5]

/-- Witness for the amended C9 on the concrete `[2, 3, 1]` container. -/
theorem C9_unbudgeted_paths_agree_witness :
    (HandleMap.insert (HandleMap.insert (HandleMap.insert (mkHandleMap Nat 0 0)
      2).2 3).2 1).2.meta.length
      = (HandleMap.insert (HandleMap.insert (HandleMap.insert (mkHandleMap Nat 0 0)
          2).2 3).2 1).2.items.length ∧
    (HandleMap.defragmentTriv (HandleMap.insert (HandleMap.insert (HandleMap.insert
        (mkHandleMap Nat 0 0) 2).2 3).2 1).2 (fun a b => decide (a > b)) 0).2
      = (HandleMap.defragmentStd (HandleMap.insert (HandleMap.insert
          (HandleMap.insert (mkHandleMap Nat 0 0) 2).2 3).2 1).2
          (fun a b => decide (a > b)) 0).2 :=
  ⟨by decide,
    C9_unbudgeted_paths_agree Nat
      (HandleMap.insert (HandleMap.insert (HandleMap.insert (mkHandleMap Nat 0 0)
        2).2 3).2 1).2 (fun a b => decide (a > b)) (by decide)⟩

end Griffin
